import Mathlib

/-!
# UIPEthernet bridge: checksum engine and send path

Shallow embedding of `libraries/UIPEthernet/src/UIPEthernet.cpp`.

* `uint8_t` / `uint16_t` values are natural numbers; every place where the C
  code truncates to 16 (or 8) bits carries an explicit `% 65536` (`% 256`).
* A byte range `(data, len)` is the list of its `len` bytes.
* The staging buffer `uip_buf` is a list of bytes, read with `getD`.
-/

namespace UIPEthernet

/-! ## Constants declared in headers that are not part of the sources -/

/-- Modelled from the spec: `UIP_LLH_LEN` of `utility/uip-conf.h`, the length of
the link-layer (Ethernet) header; the network-layer header starts at offset 14. -/
def UIP_LLH_LEN : Nat := 14

/-- Modelled from the spec: `UIP_IPH_LEN` of `utility/uip.h`, the length of the
network-layer header without options (build without `UIP_CONF_IPV6`). -/
def UIP_IPH_LEN : Nat := 20

/-- Modelled from the spec: `UIP_UDPH_LEN` of `utility/uip.h`, the length of the
datagram header. -/
def UIP_UDPH_LEN : Nat := 8

/-- Modelled from the spec: `UIP_PROTO_ICMP` of `utility/uip.h`. -/
def UIP_PROTO_ICMP : Nat := 1

/-- Modelled from the spec: `UIP_PROTO_TCP` of `utility/uip.h`. -/
def UIP_PROTO_TCP : Nat := 6

/-- Modelled from the spec: `UIP_PROTO_UDP` of `utility/uip.h`. -/
def UIP_PROTO_UDP : Nat := 17

/-- Modelled from the spec: `UIP_PROTO_ICMP6` of `utility/uip.h`. -/
def UIP_PROTO_ICMP6 : Nat := 58

/-- Modelled from the spec: `htons` of `utility/uip.h` on the little-endian
target: the two bytes of a 16-bit value are exchanged, so that the value is
laid out in memory in network byte order. -/
def htons (n : Nat) : Nat := (n % 256) * 256 + (n / 256) % 256

/-! ## Checksum engine -/

/-- The statement pair `sum += t; if(sum < t) { sum++; }` on `uint16_t`
operands, as it occurs twice in `UIPEthernetClass::chksum` (lines 316-319 and
325-328). -/
def add16 (sum t : Nat) : Nat :=
  let s := (sum + t) % 65536
  if s < t then (s + 1) % 65536 else s

/-- The function `UIPEthernetClass::chksum(sum, data, len)` (lines 304-333); the
list is the byte range `data[0 .. len-1]`.

* two or more bytes left (`dataptr < last_byte`): `t = (dataptr[0] << 8) +
  dataptr[1]`, add with carry, advance by two;
* one byte left (`dataptr == last_byte`): `t = (dataptr[0] << 8) + 0`, add with
  carry;
* nothing left: return `sum`. -/
def chksum (sum : Nat) : List Nat → Nat
  | [] => sum
  | [b] => add16 sum ((b * 256 + 0) % 65536)
  | b0 :: b1 :: rest => chksum (add16 sum ((b0 * 256 + b1) % 65536)) rest

/-- The bytes `buf[off .. off+n-1]` of a buffer: the range a call
`chksum(sum, &buf[off], n)` reads. -/
def slice (buf : List Nat) (off n : Nat) : List Nat := (buf.drop off).take n

/-- The function `UIPEthernetClass::ipchksum` (lines 337-344) on the staging
buffer `uip_buf`. -/
def ipchksum (uip_buf : List Nat) : Nat :=
  let sum := chksum 0 (slice uip_buf UIP_LLH_LEN UIP_IPH_LEN)
  if sum = 0 then 0xffff else htons sum

/-! ## Transport checksum -/

/-- Modelled from the spec: offset in `uip_buf` of `BUF->len`, the two-byte total
length field of the network-layer header (`BUF` is the header struct of
`utility/uip.h` laid over `&uip_buf[UIP_LLH_LEN]`; the field is at byte 2). -/
def OFF_LEN : Nat := 16

/-- Modelled from the spec: offset in `uip_buf` of `BUF->srcipaddr`, followed
directly by `BUF->destipaddr` (bytes 12..19 of the network-layer header). -/
def OFF_SRCIPADDR : Nat := 26

/-- Modelled from the spec: offset in `uip_buf` of `BUF->tcpoffset` (byte 12 of
the transport header, which follows the 20-byte network-layer header). -/
def OFF_TCPOFFSET : Nat := 46

/-- One invocation `network.chksum(sum, handle, pos, len)` of the external
memory manager's partial checksum. -/
structure ChksumCall where
  sum : Nat
  handle : Nat
  pos : Nat
  len : Nat
  deriving DecidableEq, Repr

/-- The value `upper_layer_len` of `upper_layer_chksum` (line 356):
`((BUF->len[0] << 8) + BUF->len[1]) - UIP_IPH_LEN`, stored in a `uint16_t`. -/
def upper_layer_len (uip_buf : List Nat) : Nat :=
  ((uip_buf.getD OFF_LEN 0 * 256 + uip_buf.getD (OFF_LEN + 1) 0) + 65536 - UIP_IPH_LEN) % 65536

/-- The `switch(proto)` of `upper_layer_chksum` (lines 366-381), which assigns
the `uint8_t upper_layer_memlen`. The switch has no default: for any other
protocol number the variable is read uninitialised, modelled as `none`. -/
def upper_layer_memlen (uip_buf : List Nat) (proto : Nat) : Option Nat :=
  if proto = UIP_PROTO_ICMP ∨ proto = UIP_PROTO_ICMP6 then
    some (upper_layer_len uip_buf % 256)
  else if proto = UIP_PROTO_TCP then
    some (((uip_buf.getD OFF_TCPOFFSET 0 / 16) * 4) % 256)
  else if proto = UIP_PROTO_UDP then
    some UIP_UDPH_LEN
  else
    none

/-- The function `UIPEthernetClass::upper_layer_chksum(proto)` (lines 347-411),
returning its result together with the list of `network.chksum` invocations it
made. `net_chksum` is the external memory manager's partial checksum,
`uip_packet` the current outbound handle. -/
def upper_layer_chksum_run (net_chksum : Nat → Nat → Nat → Nat → Nat)
    (uip_buf : List Nat) (uip_packet : Nat) (proto : Nat) :
    Option (Nat × List ChksumCall) :=
  let len := upper_layer_len uip_buf
  let sum0 := (len + proto) % 65536
  let sum1 := chksum sum0 (slice uip_buf OFF_SRCIPADDR 8)
  match upper_layer_memlen uip_buf proto with
  | none => none
  | some memlen =>
    let sum2 := chksum sum1 (slice uip_buf (UIP_IPH_LEN + UIP_LLH_LEN) memlen)
    if memlen < len then
      let pos := UIP_IPH_LEN + UIP_LLH_LEN + memlen
      let sum3 := net_chksum sum2 uip_packet pos (len - memlen)
      some (if sum3 = 0 then 0xffff else htons sum3, [⟨sum2, uip_packet, pos, len - memlen⟩])
    else
      some (if sum2 = 0 then 0xffff else htons sum2, [])

/-- The value returned by `UIPEthernetClass::upper_layer_chksum(proto)`. -/
def upper_layer_chksum (net_chksum : Nat → Nat → Nat → Nat → Nat)
    (uip_buf : List Nat) (uip_packet : Nat) (proto : Nat) : Option Nat :=
  (upper_layer_chksum_run net_chksum uip_buf uip_packet proto).map Prod.fst

/-! ## Buffer bridge and packet scheduler -/

/-- Modelled from the spec: `NOBLOCK` of `utility/mempool.h`, the distinguished
handle value meaning that no handle is held. -/
def NOBLOCK : Nat := 0

/-- Modelled from the spec: `UIPETHERNET_FREEPACKET` of `UIPEthernet.h`, the
packet-state flag saying that the inbound handle is released after dispatch. -/
def UIPETHERNET_FREEPACKET : Nat := 1

/-- Modelled from the spec: `UIPETHERNET_SENDPACKET` of `UIPEthernet.h`, the
packet-state flag saying that the handle in `uip_packet` is reused for the
outbound packet. -/
def UIPETHERNET_SENDPACKET : Nat := 2

/-- Modelled from the spec: `UIP_ETHTYPE_IP` of `utility/uip_arp.h`. -/
def UIP_ETHTYPE_IP : Nat := 0x0800

/-- Modelled from the spec: `UIP_ETHTYPE_ARP` of `utility/uip_arp.h`. -/
def UIP_ETHTYPE_ARP : Nat := 0x0806

/-- The calls that `tick` and `network_send` issue to their collaborators: the
external memory manager `network`, the protocol engine and the timer. -/
inductive Call where
  | receivePacket
  | blockSize (handle : Nat)
  | readPacket (handle position len : Nat)
  | allocBlock (size : Nat)
  | writePacket (handle position : Nat) (data : List Nat) (len : Nat)
  | sendPacket (handle : Nat)
  | freeBlock (handle : Nat)
  | freePacket
  | uip_arp_ipin
  | uip_input
  | uip_arp_out
  | uip_arp_arpin
  | uip_periodic (conn : Nat)
  | uip_udp_periodic (conn : Nat)
  | uip_timer_expired
  | uip_timer_restart
  deriving DecidableEq, Repr

/-- Recognises `network.sendPacket`, the transmit request. -/
def Call.isSend : Call → Bool
  | .sendPacket _ => true
  | _ => false

/-- Recognises `network.freeBlock`. -/
def Call.isFreeBlock : Call → Bool
  | .freeBlock _ => true
  | _ => false

/-- Recognises `network.freePacket`, the release of the inbound packet. -/
def Call.isFreePacket : Call → Bool
  | .freePacket => true
  | _ => false

/-- Recognises `network.writePacket`. -/
def Call.isWrite : Call → Bool
  | .writePacket _ _ _ _ => true
  | _ => false

/-- Recognises `network.allocBlock`. -/
def Call.isAlloc : Call → Bool
  | .allocBlock _ => true
  | _ => false

/-- Recognises `uip_arp_arpin`, the address-resolution inbound step. -/
def Call.isArpIn : Call → Bool
  | .uip_arp_arpin => true
  | _ => false

/-- Recognises `uip_arp_out`, the address resolution for outbound data. -/
def Call.isArpOut : Call → Bool
  | .uip_arp_out => true
  | _ => false

/-- Recognises a call into the protocol engine. -/
def Call.isEngine : Call → Bool
  | .uip_arp_ipin => true
  | .uip_input => true
  | .uip_arp_out => true
  | .uip_arp_arpin => true
  | .uip_periodic _ => true
  | .uip_udp_periodic _ => true
  | _ => false

/-- The members of `UIPEthernetClass` and the globals of the protocol engine that
`tick` and `network_send` use, the state `ext` of the collaborators, and the
log `trace` of the calls issued so far (oldest first). -/
structure State (σ : Type) where
  in_packet : Nat
  uip_packet : Nat
  uip_hdrlen : Nat
  packetstate : Nat
  uip_len : Nat
  uip_buf : List Nat
  ext : σ
  trace : List Call

/-- Modelled from the spec: the collaborators of section 6, whose code is not part
of the sources, with arbitrary behaviour over a hidden state `σ`. The memory
manager and timer operations act on `σ`; a protocol-engine step (which runs the
application callbacks) may rewrite the staging buffer, `uip_len`, the
packet-state flags, `uip_hdrlen`, `uip_packet` and `σ`. `UIP_CONNS`,
`UIP_UDP_CONNS` and `UIP_BUFSIZE` are the configuration constants of
`utility/uip-conf.h`. -/
structure Env (σ : Type) where
  UIP_CONNS : Nat
  UIP_UDP_CONNS : Nat
  UIP_BUFSIZE : Nat
  receivePacket : σ → Nat × σ
  blockSize : Nat → σ → Nat × σ
  readPacket : Nat → Nat → List Nat → Nat → σ → List Nat × σ
  allocBlock : Nat → σ → Nat × σ
  writePacket : Nat → Nat → List Nat → Nat → σ → σ
  sendPacket : Nat → σ → σ
  freeBlock : Nat → σ → σ
  freePacket : σ → σ
  uip_timer_expired : σ → Bool × σ
  uip_timer_restart : σ → σ
  uip_arp_ipin : State σ → State σ
  uip_input : State σ → State σ
  uip_arp_out : State σ → State σ
  uip_arp_arpin : State σ → State σ
  uip_periodic : Nat → State σ → State σ
  uip_udp_periodic : Nat → State σ → State σ

/-- A call `c` of a protocol-engine step `f`. The held inbound handle
`in_packet` is written only by `tick` (lines 157 and 208), and the log is kept
by the model, so both are carried over a protocol-engine step. -/
def callEngine {σ : Type} (c : Call) (f : State σ → State σ) (s : State σ) : State σ :=
  { f s with in_packet := s.in_packet, trace := s.trace ++ [c] }

/-- The label `sendandfree` of `network_send` (lines 270-274). -/
def sendandfree {σ : Type} (env : Env σ) (s : State σ) : Bool × State σ :=
  let s1 := { s with ext := env.sendPacket s.uip_packet s.ext,
                     trace := s.trace ++ [Call.sendPacket s.uip_packet] }
  let s2 := { s1 with ext := env.freeBlock s1.uip_packet s1.ext,
                      trace := s1.trace ++ [Call.freeBlock s1.uip_packet] }
  (true, { s2 with uip_packet := NOBLOCK })

/-- The function `UIPEthernetClass::network_send` (lines 244-275). The data
argument of `writePacket` is the range of `len` bytes starting at `uip_buf`. -/
def network_send {σ : Type} (env : Env σ) (s : State σ) : Bool × State σ :=
  if s.packetstate &&& UIPETHERNET_SENDPACKET ≠ 0 then
    sendandfree env
      { s with
        ext := env.writePacket s.uip_packet 0 (s.uip_buf.take s.uip_hdrlen) s.uip_hdrlen s.ext,
        trace := s.trace ++
          [Call.writePacket s.uip_packet 0 (s.uip_buf.take s.uip_hdrlen) s.uip_hdrlen] }
  else
    let r := env.allocBlock s.uip_len s.ext
    let s1 := { s with uip_packet := r.1, ext := r.2,
                       trace := s.trace ++ [Call.allocBlock s.uip_len] }
    if s1.uip_packet ≠ NOBLOCK then
      sendandfree env
        { s1 with
          ext := env.writePacket s1.uip_packet 0 (s1.uip_buf.take s1.uip_len) s1.uip_len s1.ext,
          trace := s1.trace ++
            [Call.writePacket s1.uip_packet 0 (s1.uip_buf.take s1.uip_len) s1.uip_len] }
    else
      (false, s1)

/-- The test `ETH_HDR->type == HTONS(t)`: the type field, bytes 12 and 13 of the
frame, holds `t` in network byte order. -/
def ethTypeIs (uip_buf : List Nat) (t : Nat) : Prop :=
  uip_buf.getD 12 0 = t / 256 ∧ uip_buf.getD 13 0 = t % 256

instance (uip_buf : List Nat) (t : Nat) : Decidable (ethTypeIs uip_buf t) :=
  inferInstanceAs (Decidable (uip_buf.getD 12 0 = t / 256 ∧ uip_buf.getD 13 0 = t % 256))

/-- Lines 155-165 of `tick`: poll for an inbound packet when none is held. -/
def tick_receive {σ : Type} (env : Env σ) (s : State σ) : State σ :=
  if s.in_packet = NOBLOCK then
    let r := env.receivePacket s.ext
    { s with in_packet := r.1, ext := r.2, trace := s.trace ++ [Call.receivePacket] }
  else s

/-- Lines 168-169 of `tick`: mark the packet to be freed and read its size. -/
def tick_size {σ : Type} (env : Env σ) (s : State σ) : State σ :=
  let r := env.blockSize s.in_packet s.ext
  { s with packetstate := UIPETHERNET_FREEPACKET, uip_len := r.1, ext := r.2,
           trace := s.trace ++ [Call.blockSize s.in_packet] }

/-- Line 172 of `tick`: copy the packet into the staging buffer. -/
def tick_read {σ : Type} (env : Env σ) (s : State σ) : State σ :=
  let r := env.readPacket s.in_packet 0 s.uip_buf env.UIP_BUFSIZE s.ext
  { s with uip_buf := r.1, ext := r.2,
           trace := s.trace ++ [Call.readPacket s.in_packet 0 env.UIP_BUFSIZE] }

/-- Lines 175-181 of `tick`: the inbound steps of the protocol engine on a
network-layer frame. -/
def tick_ip_input {σ : Type} (env : Env σ) (s : State σ) : State σ :=
  callEngine Call.uip_input env.uip_input
    (callEngine Call.uip_arp_ipin env.uip_arp_ipin { s with uip_packet := s.in_packet })

/-- Lines 175-186 of `tick`: a network-layer frame. -/
def tick_ip {σ : Type} (env : Env σ) (s : State σ) : State σ :=
  let s1 := tick_ip_input env s
  if 0 < s1.uip_len then
    (network_send env (callEngine Call.uip_arp_out env.uip_arp_out s1)).2
  else s1

/-- Line 194 of `tick`: the address-resolution inbound step. -/
def tick_arp_input {σ : Type} (env : Env σ) (s : State σ) : State σ :=
  callEngine Call.uip_arp_arpin env.uip_arp_arpin s

/-- Lines 194-198 of `tick`: an address-resolution frame. -/
def tick_arp {σ : Type} (env : Env σ) (s : State σ) : State σ :=
  let s1 := tick_arp_input env s
  if 0 < s1.uip_len then (network_send env s1).2 else s1

/-- Lines 170-200 of `tick`: the body of `if (uip_len > 0)`. -/
def tick_dispatch {σ : Type} (env : Env σ) (s : State σ) : State σ :=
  let s1 := tick_read env s
  if ethTypeIs s1.uip_buf UIP_ETHTYPE_IP then tick_ip env s1
  else if ethTypeIs s1.uip_buf UIP_ETHTYPE_ARP then tick_arp env s1
  else s1

/-- Lines 201-209 of `tick`: release the inbound packet. -/
def tick_free {σ : Type} (env : Env σ) (s : State σ) : State σ :=
  if s.in_packet ≠ NOBLOCK ∧ s.packetstate &&& UIPETHERNET_FREEPACKET ≠ 0 then
    { s with in_packet := NOBLOCK, ext := env.freePacket s.ext,
             trace := s.trace ++ [Call.freePacket] }
  else s

/-- Lines 166-210 of `tick`: the handling of a held inbound packet. -/
def tick_inbound {σ : Type} (env : Env σ) (s : State σ) : State σ :=
  if s.in_packet ≠ NOBLOCK then
    let s1 := tick_size env s
    let s2 := if 0 < s1.uip_len then tick_dispatch env s1 else s1
    tick_free env s2
  else s

/-- Lines 217-225 of `tick`: one pass of the loop over the connection slots. -/
def periodic_conn {σ : Type} (env : Env σ) (s : State σ) (i : Nat) : State σ :=
  let s1 := callEngine (Call.uip_periodic i) (env.uip_periodic i) s
  if 0 < s1.uip_len then
    (network_send env (callEngine Call.uip_arp_out env.uip_arp_out s1)).2
  else s1

/-- Lines 231-238 of `tick`: one pass of the loop over the datagram slots. -/
def periodic_udp_conn {σ : Type} (env : Env σ) (s : State σ) (i : Nat) : State σ :=
  let s1 := callEngine (Call.uip_udp_periodic i) (env.uip_udp_periodic i) s
  if 0 < s1.uip_len then (network_send env s1).2 else s1

/-- Lines 212-241 of `tick`: the periodic part (build with `UIP_UDP`). -/
def tick_periodic {σ : Type} (env : Env σ) (s : State σ) : State σ :=
  let r := env.uip_timer_expired s.ext
  let s1 := { s with ext := r.2, trace := s.trace ++ [Call.uip_timer_expired] }
  if r.1 then
    let s2 := { s1 with ext := env.uip_timer_restart s1.ext,
                        trace := s1.trace ++ [Call.uip_timer_restart] }
    let s3 := (List.range env.UIP_CONNS).foldl (periodic_conn env) s2
    (List.range env.UIP_UDP_CONNS).foldl (periodic_udp_conn env) s3
  else s1

/-- The function `UIPEthernetClass::tick` (lines 152-242). -/
def tick {σ : Type} (env : Env σ) (s : State σ) : State σ :=
  tick_periodic env (tick_inbound env (tick_receive env s))

/-- The calls issued between the state `s` and a later state `t`. -/
def issued {σ : Type} (s t : State σ) : List Call := t.trace.drop s.trace.length

/-- The state after `tick` has copied a held inbound frame into the staging
buffer (lines 155-172). -/
def tick_loaded {σ : Type} (env : Env σ) (s : State σ) : State σ :=
  tick_read env (tick_size env (tick_receive env s))

/-- The state of `tick` at line 201, before the release of the inbound packet:
lines 168-200 applied to a held handle. -/
def tick_processed {σ : Type} (env : Env σ) (s : State σ) : State σ :=
  if 0 < (tick_size env s).uip_len then tick_dispatch env (tick_size env s) else tick_size env s

/-- Recognises the four calls that `network_send` issues to the memory
manager. -/
def Call.isSendPath : Call → Bool
  | .allocBlock _ => true
  | .writePacket _ _ _ _ => true
  | .sendPacket _ => true
  | .freeBlock _ => true
  | _ => false

/-- Recognises `uip_periodic`, the periodic step of a connection slot. -/
def Call.isPeriodic : Call → Bool
  | .uip_periodic _ => true
  | _ => false

/-- Recognises `uip_timer_restart`. -/
def Call.isRestart : Call → Bool
  | .uip_timer_restart => true
  | _ => false

/-- Recognises `uip_arp_ipin`, the address resolution for inbound frames. -/
def Call.isArpIpin : Call → Bool
  | .uip_arp_ipin => true
  | _ => false

/-- The value of `sum` after line 362 of `upper_layer_chksum`:
`sum = upper_layer_len + proto`, stored in a `uint16_t`. -/
def upper_layer_sum0 (uip_buf : List Nat) (proto : Nat) : Nat :=
  (upper_layer_len uip_buf + proto) % 65536

/-- Modelled from the spec: offset in `uip_buf` of `BUF->ipchksum`, the two-byte
header checksum field (bytes 10 and 11 of the network-layer header). -/
def OFF_IPCHKSUM : Nat := 24

/-- Recognises the calls that lines 168-200 of `tick` can issue: the size and
read requests, the inbound steps of the protocol engine, the address resolution
for outbound data and the calls of `network_send`. -/
def Call.isDispatch : Call → Bool
  | .blockSize _ => true
  | .readPacket _ _ _ => true
  | .uip_arp_ipin => true
  | .uip_input => true
  | .uip_arp_out => true
  | .uip_arp_arpin => true
  | c => c.isSendPath

/-- The calls of the periodic part of `tick` (lines 212-241) that do not depend
on the protocol engine's output: the timer calls and the periodic steps of all
connection and datagram slots, in program order. -/
def periodicCalls {σ : Type} (env : Env σ) (expired : Bool) : List Call :=
  if expired then
    Call.uip_timer_expired :: Call.uip_timer_restart ::
      ((List.range env.UIP_CONNS).map Call.uip_periodic ++
        (List.range env.UIP_UDP_CONNS).map Call.uip_udp_periodic)
  else [Call.uip_timer_expired]

/-! ## Example inputs -/

/-- A 57-byte frame: link-layer header, network-layer header with total length
43 and protocol 6, a 20-byte transport header (offset byte `0x50`) and three
payload bytes. -/
def tcpFrame : List Nat :=
  [0x00, 0x11, 0x22, 0x33, 0x44, 0x55, 0x66, 0x77, 0x88, 0x99, 0xAA, 0xBB, 0x08, 0x00,
   0x45, 0x00, 0x00, 0x2B, 0x12, 0x34, 0x40, 0x00, 0x40, 0x06, 0x00, 0x00,
   0xC0, 0xA8, 0x01, 0x02, 0xC0, 0xA8, 0x01, 0x01,
   0x04, 0xD2, 0x00, 0x50, 0x00, 0x00, 0x00, 0x01, 0x00, 0x00, 0x00, 0x00,
   0x50, 0x18, 0x05, 0xB4, 0x00, 0x00, 0x00, 0x00,
   0x68, 0x69, 0x21]

/-- A staging buffer that holds the first 54 bytes of `tcpFrame`, followed by
two bytes that are not part of the frame. -/
def tcpStaging : List Nat := tcpFrame.take 54 ++ [0xEE, 0xEE]

/-- A partial checksum of the external memory manager that sums the bytes of
`tcpFrame`, whatever the handle. -/
def tcpNetChksum (sum _handle pos len : Nat) : Nat := chksum sum (slice tcpFrame pos len)

/-- A 44-byte address-resolution frame (type `0x0806`): the 42 bytes of a request
followed by two padding bytes. -/
def arpFrame : List Nat :=
  [0xFF, 0xFF, 0xFF, 0xFF, 0xFF, 0xFF, 0x66, 0x77, 0x88, 0x99, 0xAA, 0xBB, 0x08, 0x06,
   0x00, 0x01, 0x08, 0x00, 0x06, 0x04, 0x00, 0x01,
   0x66, 0x77, 0x88, 0x99, 0xAA, 0xBB, 0xC0, 0xA8, 0x01, 0x02,
   0x00, 0x00, 0x00, 0x00, 0x00, 0x00, 0xC0, 0xA8, 0x01, 0x01,
   0x00, 0x00]

/-- A collaborator whose hidden state counts the allocation requests still to
be refused. It delivers handle 1 holding `frame`, hands out handle 2 once the
refusals are used up, never reports the timer expired, and has a protocol
engine that sets `uip_len` to `reply`, and sets the packet-state flags to
`flags` when `flags` is given. -/
def scriptedEnv (frame : List Nat) (reply : Nat) (flags : Option Nat) : Env Nat where
  UIP_CONNS := 2
  UIP_UDP_CONNS := 1
  UIP_BUFSIZE := 98
  receivePacket := fun e => (1, e)
  blockSize := fun _ e => (frame.length, e)
  readPacket := fun _ _ _ _ e => (frame, e)
  allocBlock := fun _ e => (if e = 0 then 2 else NOBLOCK, e - 1)
  writePacket := fun _ _ _ _ e => e
  sendPacket := fun _ e => e
  freeBlock := fun _ e => e
  freePacket := fun e => e
  uip_timer_expired := fun e => (false, e)
  uip_timer_restart := fun e => e
  uip_arp_ipin := fun s => s
  uip_input := fun s => { s with uip_len := reply, packetstate := flags.getD s.packetstate }
  uip_arp_out := fun s => s
  uip_arp_arpin := fun s => { s with uip_len := reply, packetstate := flags.getD s.packetstate }
  uip_periodic := fun _ s => s
  uip_udp_periodic := fun _ s => s

/-- A bridge state over `scriptedEnv` with empty log: held handles, header
length, flags, `uip_len`, staging buffer and the number of allocation requests
to refuse. -/
def scriptedState (in_packet uip_packet uip_hdrlen packetstate uip_len : Nat)
    (uip_buf : List Nat) (refusals : Nat) : State Nat :=
  { in_packet := in_packet, uip_packet := uip_packet, uip_hdrlen := uip_hdrlen,
    packetstate := packetstate, uip_len := uip_len, uip_buf := uip_buf,
    ext := refusals, trace := [] }

/-- A 54-byte staging buffer whose network-layer header declares total length
19 (`0x0013`), less than the header itself, and protocol 6. -/
def shortLenStaging : List Nat :=
  [0x00, 0x11, 0x22, 0x33, 0x44, 0x55, 0x66, 0x77, 0x88, 0x99, 0xAA, 0xBB, 0x08, 0x00,
   0x45, 0x00, 0x00, 0x13, 0x12, 0x34, 0x40, 0x00, 0x40, 0x06, 0x00, 0x00,
   0xC0, 0xA8, 0x01, 0x02, 0xC0, 0xA8, 0x01, 0x01,
   0x04, 0xD2, 0x00, 0x50, 0x00, 0x00, 0x00, 0x01, 0x00, 0x00, 0x00, 0x00,
   0x50, 0x18, 0x05, 0xB4, 0x00, 0x00, 0x00, 0x00]

/-- The collaborator `scriptedEnv` with a timer that always reports expiry. -/
def expiredEnv (frame : List Nat) (reply : Nat) (flags : Option Nat) : Env Nat :=
  { scriptedEnv frame reply flags with uip_timer_expired := fun e => (true, e) }

/-! ## Reference notions used to state the checksum claims -/

/-- Exact integer sum of the big-endian 16-bit words of a byte sequence; a
trailing odd byte `b` counts as `b * 256`. -/
def wordSum : List Nat → Nat
  | [] => 0
  | [b] => b * 256
  | b0 :: b1 :: rest => (b0 * 256 + b1) + wordSum rest

/-- One's-complement normal form: `N(0) = 0`, `N(x) = ((x-1) mod 65535) + 1`
for `x > 0`. -/
def onesNorm (x : Nat) : Nat := if x = 0 then 0 else (x - 1) % 65535 + 1

/-- Wire form of a finished sum: `0xFFFF` if the sum is zero, otherwise the
byte-swapped sum. -/
def wireForm (sum : Nat) : Nat := if sum = 0 then 0xffff else htons sum

/-- The total-length field `T` of the network-layer header in a frame. -/
def ipTotalLen (frame : List Nat) : Nat := frame.getD 16 0 * 256 + frame.getD 17 0

/-- The standard pseudo-header of a frame: source address, destination address,
a zero byte, the protocol number and the big-endian upper-layer length. -/
def pseudoHeader (frame : List Nat) (proto len : Nat) : List Nat :=
  slice frame 26 4 ++ slice frame 30 4 ++ [0, proto, len / 256, len % 256]

/-- The 16-bit bitwise complement of a 16-bit value. -/
def complement16 (x : Nat) : Nat := 0xFFFF - x

/-- A byte sequence with the two bytes at offsets `i` and `i + 1` replaced by
the 16-bit value `w` in big-endian order. -/
def setWord (data : List Nat) (i w : Nat) : List Nat :=
  (data.set i (w / 256)).set (i + 1) (w % 256)

/-- Zero-pad a byte sequence to even length. -/
def padEven (data : List Nat) : List Nat :=
  if data.length % 2 = 0 then data else data ++ [0]

/-! ## Lemmas on the checksum engine -/

theorem add16_lt (s t : Nat) : add16 s t < 65536 := by
  unfold add16
  simp only
  split <;> omega

theorem add16_eq_onesNorm (s t : Nat) (hs : s < 65536) (ht : t < 65536) :
    add16 s t = onesNorm (s + t) := by
  unfold add16 onesNorm
  simp only
  split <;> split <;> omega

theorem onesNorm_lt (x : Nat) : onesNorm x < 65536 := by
  unfold onesNorm
  split <;> omega

theorem onesNorm_of_lt (x : Nat) (hx : x < 65536) : onesNorm x = x := by
  unfold onesNorm
  split <;> omega

theorem onesNorm_add (x t : Nat) : onesNorm (onesNorm x + t) = onesNorm (x + t) := by
  unfold onesNorm
  split <;> split <;> split <;> omega

theorem onesNorm_mod (x : Nat) : onesNorm x % 65535 = x % 65535 := by
  unfold onesNorm
  split <;> omega

theorem onesNorm_eq_zero (x : Nat) : onesNorm x = 0 ↔ x = 0 := by
  unfold onesNorm
  split <;> omega

theorem chksum_lt (sum : Nat) (data : List Nat) (hs : sum < 65536) :
    chksum sum data < 65536 := by
  induction sum, data using chksum.induct with
  | case1 sum => simpa [chksum] using hs
  | case2 sum b => simpa [chksum] using add16_lt _ _
  | case3 sum b0 b1 rest ih =>
    rw [chksum]
    exact ih (add16_lt _ _)

theorem chksum_eq_onesNorm (sum : Nat) (data : List Nat) (hs : sum < 65536)
    (hb : ∀ b ∈ data, b < 256) : chksum sum data = onesNorm (sum + wordSum data) := by
  induction sum, data using chksum.induct with
  | case1 sum => simp [chksum, wordSum, onesNorm_of_lt sum hs]
  | case2 sum b =>
    have hb0 : b < 256 := hb b (by simp)
    rw [chksum, wordSum, Nat.mod_eq_of_lt (by omega), add16_eq_onesNorm _ _ hs (by omega)]
    simp
  | case3 sum b0 b1 rest ih =>
    have hb0 : b0 < 256 := hb b0 (by simp)
    have hb1 : b1 < 256 := hb b1 (by simp)
    have hrest : ∀ b ∈ rest, b < 256 := fun b h => hb b (by simp [h])
    rw [chksum, wordSum, ih (add16_lt _ _) hrest, Nat.mod_eq_of_lt (by omega),
      add16_eq_onesNorm _ _ hs (by omega), onesNorm_add, Nat.add_assoc]

theorem chksum_append_even (sum : Nat) (A B : List Nat) (hA : A.length % 2 = 0) :
    chksum (chksum sum A) B = chksum sum (A ++ B) := by
  induction sum, A using chksum.induct with
  | case1 sum => simp [chksum]
  | case2 sum b => simp at hA
  | case3 sum b0 b1 rest ih =>
    have hrest : rest.length % 2 = 0 := by
      simp only [List.length_cons] at hA
      omega
    simp only [List.cons_append, chksum]
    exact ih hrest

theorem padEven_length (A : List Nat) : (padEven A).length % 2 = 0 := by
  unfold padEven
  split
  · assumption
  · simp only [List.length_append, List.length_singleton]
    omega

theorem padEven_cons_cons (b0 b1 : Nat) (rest : List Nat) :
    padEven (b0 :: b1 :: rest) = b0 :: b1 :: padEven rest := by
  unfold padEven
  have h : (b0 :: b1 :: rest).length % 2 = rest.length % 2 := by
    simp only [List.length_cons]
    omega
  rw [h]
  split <;> simp

theorem chksum_padEven (sum : Nat) (A : List Nat) :
    chksum sum (padEven A) = chksum sum A := by
  induction sum, A using chksum.induct with
  | case1 sum => simp [padEven]
  | case2 sum b => simp [padEven, chksum]
  | case3 sum b0 b1 rest ih =>
    rw [padEven_cons_cons, chksum, chksum, ih]

theorem wordSum_eq_zero (data : List Nat) (h : wordSum data = 0) : ∀ b ∈ data, b = 0 := by
  induction data using wordSum.induct with
  | case1 => simp
  | case2 b =>
    simp only [wordSum] at h
    intro x hx
    simp only [List.mem_singleton] at hx
    omega
  | case3 b0 b1 rest ih =>
    simp only [wordSum] at h
    have hr : wordSum rest = 0 := by omega
    intro x hx
    simp only [List.mem_cons] at hx
    rcases hx with hx | hx | hx
    · omega
    · omega
    · exact ih hr x hx

theorem chksum_replicate_zero (n : Nat) : chksum 0 (List.replicate (2 * n) 0) = 0 := by
  induction n with
  | zero => simp [chksum]
  | succ k ih =>
    have h : List.replicate (2 * (k + 1)) 0 = 0 :: 0 :: List.replicate (2 * k) 0 := by
      rw [show 2 * (k + 1) = 2 * k + 1 + 1 by ring]
      simp [List.replicate_succ]
    rw [h, chksum]
    simpa [add16] using ih

theorem htons_ne_zero (n : Nat) (h0 : n ≠ 0) (hn : n < 65536) : htons n ≠ 0 := by
  unfold htons
  omega

theorem getD_lt_256 (l : List Nat) (i : Nat) (h : ∀ b ∈ l, b < 256) : l.getD i 0 < 256 := by
  by_cases hi : i < l.length
  · rw [List.getD_eq_getElem l 0 hi]
    exact h _ (List.getElem_mem hi)
  · rw [List.getD_eq_default l 0 (by omega)]
    decide

theorem slice_mem (l : List Nat) (off n b : Nat) (h : b ∈ slice l off n) : b ∈ l :=
  List.mem_of_mem_drop (List.mem_of_mem_take h)

theorem slice_length (l : List Nat) (off n : Nat) (h : off + n ≤ l.length) :
    (slice l off n).length = n := by
  unfold slice
  rw [List.length_take, List.length_drop]
  omega

theorem slice_congr (a b : List Nat) (k off n : Nat) (h : a.take k = b.take k)
    (hk : off + n ≤ k) : slice a off n = slice b off n := by
  have key : ∀ l : List Nat, slice l off n = List.drop off (List.take (off + n) (l.take k)) := by
    intro l
    unfold slice
    rw [List.take_drop, List.take_take, Nat.min_eq_left hk]
  rw [key a, key b, h]

theorem slice_append (l : List Nat) (off m n : Nat) :
    slice l off m ++ slice l (off + m) n = slice l off (m + n) := by
  unfold slice
  rw [List.take_add, List.drop_drop]

theorem wordSum_append_even (A B : List Nat) (hA : A.length % 2 = 0) :
    wordSum (A ++ B) = wordSum A + wordSum B := by
  induction A using wordSum.induct with
  | case1 => simp [wordSum]
  | case2 b => simp at hA
  | case3 b0 b1 rest ih =>
    have hrest : rest.length % 2 = 0 := by
      simp only [List.length_cons] at hA
      omega
    rw [List.cons_append, List.cons_append, wordSum, wordSum, ih hrest]
    omega

theorem wordSum_pseudoHeader (pkt : List Nat) (proto len : Nat) (h34 : 34 ≤ pkt.length) :
    (pseudoHeader pkt proto len).length % 2 = 0 ∧
    wordSum (pseudoHeader pkt proto len) = wordSum (slice pkt 26 8) + (len + proto) := by
  unfold pseudoHeader
  have h8 := slice_append pkt 26 4 4
  have hl : (slice pkt 26 8).length = 8 := slice_length pkt 26 8 (by omega)
  simp only [Nat.reduceAdd] at h8
  rw [h8]
  constructor
  · rw [List.length_append, hl]
    simp
  · rw [wordSum_append_even _ _ (by rw [hl])]
    simp only [wordSum]
    have := Nat.div_add_mod len 256
    omega

theorem transport_sum (pkt : List Nat) (proto len : Nat) (hpkt : ∀ b ∈ pkt, b < 256)
    (hproto : proto < 256) (hlen : len + proto < 65536) (h34 : 34 ≤ pkt.length) :
    chksum (len + proto) (slice pkt 26 8 ++ slice pkt 34 len)
      = chksum 0 (pseudoHeader pkt proto len ++ slice pkt 34 len) := by
  have hl : (slice pkt 26 8).length = 8 := slice_length pkt 26 8 (by omega)
  obtain ⟨hpl, hpw⟩ := wordSum_pseudoHeader pkt proto len h34
  have hb1 : ∀ b ∈ slice pkt 26 8 ++ slice pkt 34 len, b < 256 := by
    intro b hb
    rcases List.mem_append.1 hb with h | h
    · exact hpkt b (slice_mem _ _ _ _ h)
    · exact hpkt b (slice_mem _ _ _ _ h)
  have hb2 : ∀ b ∈ pseudoHeader pkt proto len ++ slice pkt 34 len, b < 256 := by
    intro b hb
    rcases List.mem_append.1 hb with h | h
    · unfold pseudoHeader at h
      rcases List.mem_append.1 h with h | h
      · rcases List.mem_append.1 h with h | h
        · exact hpkt b (slice_mem _ _ _ _ h)
        · exact hpkt b (slice_mem _ _ _ _ h)
      · simp only [List.mem_cons, List.mem_singleton, List.not_mem_nil, or_false] at h
        rcases h with h | h | h | h
        · omega
        · omega
        · rw [h]
          exact Nat.div_lt_of_lt_mul (by omega)
        · rw [h]
          exact Nat.mod_lt _ (by decide)
    · exact hpkt b (slice_mem _ _ _ _ h)
  rw [chksum_eq_onesNorm _ _ hlen hb1, chksum_eq_onesNorm _ _ (by decide) hb2,
    wordSum_append_even _ _ (by rw [hl]), wordSum_append_even _ _ hpl, hpw]
  congr 1
  omega

/-! ## Claims on the checksum engine -/

/-- C2: for every 16-bit seed and every sequence of bytes, `chksum seed data` is
the one's-complement normal form of `seed + W`, `W` the exact sum of the
big-endian words of the data (a trailing odd byte counting as `b * 256`); hence
it is congruent to `seed + W` modulo 65535 and is zero only when the seed is
zero and every byte is zero. -/
theorem chksum_ones_complement_sum (seed : Nat) (data : List Nat)
    (hseed : seed < 65536) (hbytes : ∀ b ∈ data, b < 256) :
    chksum seed data = onesNorm (seed + wordSum data) ∧
    chksum seed data % 65535 = (seed + wordSum data) % 65535 ∧
    (chksum seed data = 0 → seed = 0 ∧ ∀ b ∈ data, b = 0) := by
  have h := chksum_eq_onesNorm seed data hseed hbytes
  refine ⟨h, ?_, ?_⟩
  · rw [h, onesNorm_mod]
  · intro h0
    rw [h, onesNorm_eq_zero] at h0
    exact ⟨by omega, wordSum_eq_zero data (by omega)⟩

theorem chksum_ones_complement_sum_witness :
    chksum 0xFFFF [0x12, 0x34, 0x56] = onesNorm (0xFFFF + wordSum [0x12, 0x34, 0x56]) ∧
    chksum 0xFFFF [0x12, 0x34, 0x56] % 65535
      = (0xFFFF + wordSum [0x12, 0x34, 0x56]) % 65535 ∧
    (chksum 0xFFFF [0x12, 0x34, 0x56] = 0 →
      0xFFFF = 0 ∧ ∀ b ∈ [0x12, 0x34, 0x56], b = 0) :=
  chksum_ones_complement_sum 0xFFFF [0x12, 0x34, 0x56] (by decide) (by decide)

/-- C3 (as stated, refuted): with the odd-length first part `[1]` the continued
sum is `0x0300` while the sum over the concatenation `[1, 2]` is `0x0102`. -/
theorem chksum_split_odd_counterexample :
    chksum (chksum 0 [1]) [2] = 0x0300 ∧ chksum 0 ([1] ++ [2]) = 0x0102 ∧
    chksum (chksum 0 [1]) [2] ≠ chksum 0 ([1] ++ [2]) := by
  decide

/-- C3 (amended): continuing a running sum over `B` after `A` equals the sum
over `A`, zero-padded to even length, followed by `B`; when `A` has even
length this is the sum over `A ++ B`. -/
theorem chksum_continue_padded (seed : Nat) (A B : List Nat) :
    chksum (chksum seed A) B = chksum seed (padEven A ++ B) := by
  rw [← chksum_append_even seed (padEven A) B (padEven_length A), chksum_padEven]

/-- C4: `ipchksum` never returns `0x0000`; it returns `0xFFFF` when the sum of
the 20 header bytes is zero; and the checksum of an all-zero buffer of even
length, started at zero, is zero. -/
theorem ipchksum_never_zero :
    (∀ uip_buf : List Nat, ipchksum uip_buf ≠ 0) ∧
    (∀ uip_buf : List Nat,
      chksum 0 (slice uip_buf 14 20) = 0 → ipchksum uip_buf = 0xFFFF) ∧
    (∀ n : Nat, chksum 0 (List.replicate (2 * n) 0) = 0) := by
  refine ⟨?_, ?_, chksum_replicate_zero⟩
  · intro uip_buf
    unfold ipchksum
    simp only
    split
    · decide
    · exact htons_ne_zero _ (by assumption) (chksum_lt 0 _ (by decide))
  · intro uip_buf h
    unfold ipchksum
    simp only [UIP_LLH_LEN, UIP_IPH_LEN, h, if_true]

theorem ipchksum_never_zero_witness :
    ipchksum (List.replicate 34 0) ≠ 0 ∧ ipchksum (List.replicate 34 0) = 0xFFFF ∧
    chksum 0 (List.replicate (2 * 10) 0) = 0 :=
  ⟨ipchksum_never_zero.1 (List.replicate 34 0),
   ipchksum_never_zero.2.1 (List.replicate 34 0) (by decide),
   ipchksum_never_zero.2.2 10⟩

/-! ## Claim on the transport checksum -/

/-- C1: for TCP and UDP, when the declared total length `T` covers the
memory-resident part (`20 + memlen ≤ T`), the external partial checksum is the
checksum over the bytes of the packet held by `uip_packet`, and that packet
agrees with the staging buffer on its first `34 + memlen` bytes, then
`upper_layer_chksum` is the wire form of the single-pass checksum, started at
zero, of the pseudo-header followed by the `T - 20` transport bytes. -/
theorem upper_layer_chksum_single_pass
    (net_chksum : Nat → Nat → Nat → Nat → Nat) (uip_buf pkt : List Nat)
    (uip_packet proto memlen : Nat)
    (hproto : proto = UIP_PROTO_TCP ∨ proto = UIP_PROTO_UDP)
    (hmemlen : memlen = if proto = UIP_PROTO_TCP then 4 * (uip_buf.getD 46 0 / 16) else 8)
    (hbuf : ∀ b ∈ uip_buf, b < 256) (hpkt : ∀ b ∈ pkt, b < 256)
    (hT : 20 + memlen ≤ ipTotalLen uip_buf)
    (hpktlen : 14 + ipTotalLen uip_buf ≤ pkt.length)
    (hnet : ∀ s off n, net_chksum s uip_packet off n = chksum s (slice pkt off n))
    (hagree : pkt.take (34 + memlen) = uip_buf.take (34 + memlen)) :
    upper_layer_chksum net_chksum uip_buf uip_packet proto =
      some (wireForm (chksum 0 (pseudoHeader pkt proto (ipTotalLen uip_buf - 20) ++
        slice pkt 34 (ipTotalLen uip_buf - 20)))) := by
  have h16 := getD_lt_256 uip_buf 16 hbuf
  have h17 := getD_lt_256 uip_buf 17 hbuf
  have h46 := getD_lt_256 uip_buf 46 hbuf
  have hTdef : ipTotalLen uip_buf = uip_buf.getD 16 0 * 256 + uip_buf.getD 17 0 := rfl
  have hlen : upper_layer_len uip_buf = ipTotalLen uip_buf - 20 := by
    unfold upper_layer_len
    simp only [OFF_LEN, UIP_IPH_LEN, Nat.reduceAdd]
    omega
  have hp : proto ≤ 17 := by
    rcases hproto with h | h <;> rw [h] <;> decide
  have hmem : upper_layer_memlen uip_buf proto = some memlen ∧ memlen % 2 = 0 := by
    unfold upper_layer_memlen
    rcases hproto with h | h
    · subst h
      simp only [UIP_PROTO_TCP, UIP_PROTO_ICMP, UIP_PROTO_ICMP6, UIP_PROTO_UDP, OFF_TCPOFFSET,
        if_true] at hmemlen ⊢
      refine ⟨?_, by omega⟩
      simp only [Nat.reduceEqDiff, or_self, if_false, if_true, Option.some.injEq]
      omega
    · subst h
      simp only [UIP_PROTO_TCP, UIP_PROTO_ICMP, UIP_PROTO_ICMP6, UIP_PROTO_UDP, UIP_UDPH_LEN]
        at hmemlen ⊢
      simp only [Nat.reduceEqDiff, if_false] at hmemlen
      refine ⟨?_, by omega⟩
      simp only [Nat.reduceEqDiff, or_self, if_false, if_true, Option.some.injEq]
      omega
  obtain ⟨hmem, heven⟩ := hmem
  have hsum0 : (ipTotalLen uip_buf - 20 + proto) % 65536 = ipTotalLen uip_buf - 20 + proto :=
    Nat.mod_eq_of_lt (by omega)
  have hs1 : slice uip_buf 26 8 = slice pkt 26 8 :=
    (slice_congr pkt uip_buf (34 + memlen) 26 8 hagree (by omega)).symm
  have hs2 : slice uip_buf 34 memlen = slice pkt 34 memlen :=
    (slice_congr pkt uip_buf (34 + memlen) 34 memlen hagree (by omega)).symm
  have hl1 : (slice pkt 26 8).length = 8 := slice_length pkt 26 8 (by omega)
  have hl2 : (slice pkt 34 memlen).length = memlen := slice_length pkt 34 memlen (by omega)
  have hlocal : chksum (chksum (ipTotalLen uip_buf - 20 + proto) (slice pkt 26 8))
      (slice pkt 34 memlen)
      = chksum (ipTotalLen uip_buf - 20 + proto) (slice pkt 26 8 ++ slice pkt 34 memlen) :=
    chksum_append_even _ _ _ (by rw [hl1])
  have hfinal := transport_sum pkt proto (ipTotalLen uip_buf - 20) hpkt (by omega) (by omega)
    (by omega)
  unfold upper_layer_chksum upper_layer_chksum_run
  simp only [hmem, hlen, hsum0, OFF_SRCIPADDR, UIP_IPH_LEN, UIP_LLH_LEN, Nat.reduceAdd, hs1, hs2,
    hlocal]
  by_cases hlt : memlen < ipTotalLen uip_buf - 20
  · simp only [hlt, if_true, Option.map_some', hnet]
    rw [chksum_append_even _ _ _ (by rw [List.length_append, hl1, hl2]; omega),
      List.append_assoc, slice_append,
      show memlen + (ipTotalLen uip_buf - 20 - memlen) = ipTotalLen uip_buf - 20 by omega,
      hfinal]
    rfl
  · have hmeq : memlen = ipTotalLen uip_buf - 20 := by omega
    simp only [hlt, if_false, Option.map_some']
    rw [hmeq, hfinal]
    rfl

theorem upper_layer_chksum_single_pass_witness :
    upper_layer_chksum tcpNetChksum tcpStaging 7 UIP_PROTO_TCP =
      some (wireForm (chksum 0 (pseudoHeader tcpFrame UIP_PROTO_TCP (ipTotalLen tcpStaging - 20) ++
        slice tcpFrame 34 (ipTotalLen tcpStaging - 20)))) :=
  upper_layer_chksum_single_pass tcpNetChksum tcpStaging tcpFrame 7 UIP_PROTO_TCP 20
    (Or.inl rfl) (by decide) (by decide) (by decide) (by decide) (by decide)
    (fun _ _ _ => rfl) (by decide)

/-! ## Lemmas on the buffer bridge -/

theorem issued_of_trace {σ : Type} (s t : State σ) (L : List Call)
    (h : t.trace = s.trace ++ L) : issued s t = L := by
  unfold issued
  rw [h, List.drop_left]

theorem network_send_reply {σ : Type} (env : Env σ) (s : State σ)
    (hmode : s.packetstate &&& UIPETHERNET_SENDPACKET ≠ 0) :
    (network_send env s).1 = true ∧
    (network_send env s).2.trace = s.trace ++
      [Call.writePacket s.uip_packet 0 (s.uip_buf.take s.uip_hdrlen) s.uip_hdrlen,
       Call.sendPacket s.uip_packet, Call.freeBlock s.uip_packet] ∧
    (network_send env s).2.uip_packet = NOBLOCK ∧
    (network_send env s).2.in_packet = s.in_packet ∧
    (network_send env s).2.packetstate = s.packetstate := by
  unfold network_send sendandfree
  simp [hmode]

theorem network_send_alloc_ok {σ : Type} (env : Env σ) (s : State σ)
    (hmode : s.packetstate &&& UIPETHERNET_SENDPACKET = 0)
    (hok : (env.allocBlock s.uip_len s.ext).1 ≠ NOBLOCK) :
    (network_send env s).1 = true ∧
    (network_send env s).2.trace = s.trace ++
      [Call.allocBlock s.uip_len,
       Call.writePacket (env.allocBlock s.uip_len s.ext).1 0 (s.uip_buf.take s.uip_len) s.uip_len,
       Call.sendPacket (env.allocBlock s.uip_len s.ext).1,
       Call.freeBlock (env.allocBlock s.uip_len s.ext).1] ∧
    (network_send env s).2.uip_packet = NOBLOCK ∧
    (network_send env s).2.in_packet = s.in_packet ∧
    (network_send env s).2.packetstate = s.packetstate := by
  unfold network_send sendandfree
  simp [hmode, hok]

theorem network_send_alloc_fail {σ : Type} (env : Env σ) (s : State σ)
    (hmode : s.packetstate &&& UIPETHERNET_SENDPACKET = 0)
    (hfail : (env.allocBlock s.uip_len s.ext).1 = NOBLOCK) :
    (network_send env s).1 = false ∧
    (network_send env s).2.trace = s.trace ++ [Call.allocBlock s.uip_len] ∧
    (network_send env s).2.uip_packet = NOBLOCK ∧
    (network_send env s).2.in_packet = s.in_packet ∧
    (network_send env s).2.packetstate = s.packetstate ∧
    (network_send env s).2.uip_hdrlen = s.uip_hdrlen ∧
    (network_send env s).2.uip_len = s.uip_len ∧
    (network_send env s).2.uip_buf = s.uip_buf ∧
    (network_send env s).2.ext = (env.allocBlock s.uip_len s.ext).2 := by
  unfold network_send sendandfree
  simp [hmode, hfail]

/-! ## Claims on the buffer bridge -/

/-- C5: whenever `network_send` returns true, the transmit and block-release
calls it issued are exactly one `sendPacket` followed by one `freeBlock` of the
same handle, and on return `uip_packet` is `NOBLOCK`. -/
theorem network_send_true_one_transmit {σ : Type} (env : Env σ) (s : State σ)
    (h : (network_send env s).1 = true) :
    (∃ handle, (issued s (network_send env s).2).filter
        (fun c => c.isSend || c.isFreeBlock) = [Call.sendPacket handle, Call.freeBlock handle]) ∧
    (issued s (network_send env s).2).countP Call.isSend = 1 ∧
    (issued s (network_send env s).2).countP Call.isFreeBlock = 1 ∧
    (network_send env s).2.uip_packet = NOBLOCK := by
  by_cases hmode : s.packetstate &&& UIPETHERNET_SENDPACKET ≠ 0
  · obtain ⟨_, ht, hp, _⟩ := network_send_reply env s hmode
    rw [issued_of_trace s _ _ ht]
    exact ⟨⟨s.uip_packet, by simp [Call.isSend, Call.isFreeBlock]⟩,
      by simp [Call.isSend], by simp [Call.isFreeBlock], hp⟩
  · have hmode0 : s.packetstate &&& UIPETHERNET_SENDPACKET = 0 := by
      simpa using hmode
    by_cases hok : (env.allocBlock s.uip_len s.ext).1 ≠ NOBLOCK
    · obtain ⟨_, ht, hp, _⟩ := network_send_alloc_ok env s hmode0 hok
      rw [issued_of_trace s _ _ ht]
      exact ⟨⟨(env.allocBlock s.uip_len s.ext).1, by simp [Call.isSend, Call.isFreeBlock]⟩,
        by simp [Call.isSend], by simp [Call.isFreeBlock], hp⟩
    · have hfail : (env.allocBlock s.uip_len s.ext).1 = NOBLOCK := by
        simpa using hok
      have hf := (network_send_alloc_fail env s hmode0 hfail).1
      rw [hf] at h
      exact absurd h (by decide)

theorem network_send_true_one_transmit_witness :
    (∃ handle, (issued (scriptedState 1 1 54 UIPETHERNET_SENDPACKET 57 tcpStaging 0)
        (network_send (scriptedEnv tcpFrame 0 none)
          (scriptedState 1 1 54 UIPETHERNET_SENDPACKET 57 tcpStaging 0)).2).filter
        (fun c => c.isSend || c.isFreeBlock) = [Call.sendPacket handle, Call.freeBlock handle]) ∧
    (issued (scriptedState 1 1 54 UIPETHERNET_SENDPACKET 57 tcpStaging 0)
        (network_send (scriptedEnv tcpFrame 0 none)
          (scriptedState 1 1 54 UIPETHERNET_SENDPACKET 57 tcpStaging 0)).2).countP Call.isSend = 1 ∧
    (issued (scriptedState 1 1 54 UIPETHERNET_SENDPACKET 57 tcpStaging 0)
        (network_send (scriptedEnv tcpFrame 0 none)
          (scriptedState 1 1 54 UIPETHERNET_SENDPACKET 57 tcpStaging 0)).2).countP
        Call.isFreeBlock = 1 ∧
    (network_send (scriptedEnv tcpFrame 0 none)
      (scriptedState 1 1 54 UIPETHERNET_SENDPACKET 57 tcpStaging 0)).2.uip_packet = NOBLOCK :=
  network_send_true_one_transmit (scriptedEnv tcpFrame 0 none)
    (scriptedState 1 1 54 UIPETHERNET_SENDPACKET 57 tcpStaging 0) (by decide)

/-- C6: in fresh-send mode, when `allocBlock(uip_len)` returns `NOBLOCK`,
`network_send` returns false, issues no `writePacket`, `sendPacket` or
`freeBlock`, leaves `uip_packet` at `NOBLOCK` and leaves the staging buffer and
`uip_len` as they were; and a following `network_send` on the resulting state
whose allocation returns a handle `h` issues exactly: the allocation, a write of
the first `uip_len` bytes of that same staging buffer at offset 0 of `h`, one
transmit of `h` and the release of `h`. -/
theorem network_send_alloc_failure_then_retry {σ : Type} (env : Env σ) (s : State σ) (h : Nat)
    (hmode : s.packetstate &&& UIPETHERNET_SENDPACKET = 0)
    (hfail : (env.allocBlock s.uip_len s.ext).1 = NOBLOCK)
    (hh : h ≠ NOBLOCK)
    (hretry : (env.allocBlock s.uip_len (network_send env s).2.ext).1 = h) :
    (network_send env s).1 = false ∧
    (issued s (network_send env s).2).countP Call.isWrite = 0 ∧
    (issued s (network_send env s).2).countP Call.isSend = 0 ∧
    (issued s (network_send env s).2).countP Call.isFreeBlock = 0 ∧
    (network_send env s).2.uip_packet = NOBLOCK ∧
    (network_send env s).2.uip_buf = s.uip_buf ∧
    (network_send env s).2.uip_len = s.uip_len ∧
    (network_send env (network_send env s).2).1 = true ∧
    issued (network_send env s).2 (network_send env (network_send env s).2).2 =
      [Call.allocBlock s.uip_len,
       Call.writePacket h 0 (s.uip_buf.take s.uip_len) s.uip_len,
       Call.sendPacket h, Call.freeBlock h] := by
  obtain ⟨h1, ht, hp, _, hps, _, hlen, hbuf, _⟩ := network_send_alloc_fail env s hmode hfail
  have hmode2 : (network_send env s).2.packetstate &&& UIPETHERNET_SENDPACKET = 0 := by
    rw [hps]
    exact hmode
  have hok : (env.allocBlock (network_send env s).2.uip_len (network_send env s).2.ext).1
      ≠ NOBLOCK := by
    rw [hlen, hretry]
    exact hh
  obtain ⟨h2, ht2, _⟩ := network_send_alloc_ok env (network_send env s).2 hmode2 hok
  rw [issued_of_trace s _ _ ht, issued_of_trace _ _ _ ht2, hlen, hbuf, hretry]
  exact ⟨h1, by simp [Call.isWrite], by simp [Call.isSend], by simp [Call.isFreeBlock],
    hp, rfl, rfl, h2, rfl⟩

theorem network_send_alloc_failure_then_retry_witness :
    (network_send (scriptedEnv tcpFrame 0 none)
      (scriptedState 0 0 0 0 57 tcpFrame 1)).1 = false ∧
    (issued (scriptedState 0 0 0 0 57 tcpFrame 1) (network_send (scriptedEnv tcpFrame 0 none)
      (scriptedState 0 0 0 0 57 tcpFrame 1)).2).countP Call.isWrite = 0 ∧
    (issued (scriptedState 0 0 0 0 57 tcpFrame 1) (network_send (scriptedEnv tcpFrame 0 none)
      (scriptedState 0 0 0 0 57 tcpFrame 1)).2).countP Call.isSend = 0 ∧
    (issued (scriptedState 0 0 0 0 57 tcpFrame 1) (network_send (scriptedEnv tcpFrame 0 none)
      (scriptedState 0 0 0 0 57 tcpFrame 1)).2).countP Call.isFreeBlock = 0 ∧
    (network_send (scriptedEnv tcpFrame 0 none)
      (scriptedState 0 0 0 0 57 tcpFrame 1)).2.uip_packet = NOBLOCK ∧
    (network_send (scriptedEnv tcpFrame 0 none)
      (scriptedState 0 0 0 0 57 tcpFrame 1)).2.uip_buf = tcpFrame ∧
    (network_send (scriptedEnv tcpFrame 0 none)
      (scriptedState 0 0 0 0 57 tcpFrame 1)).2.uip_len = 57 ∧
    (network_send (scriptedEnv tcpFrame 0 none) (network_send (scriptedEnv tcpFrame 0 none)
      (scriptedState 0 0 0 0 57 tcpFrame 1)).2).1 = true ∧
    issued (network_send (scriptedEnv tcpFrame 0 none) (scriptedState 0 0 0 0 57 tcpFrame 1)).2
      (network_send (scriptedEnv tcpFrame 0 none) (network_send (scriptedEnv tcpFrame 0 none)
        (scriptedState 0 0 0 0 57 tcpFrame 1)).2).2 =
      [Call.allocBlock 57, Call.writePacket 2 0 (tcpFrame.take 57) 57,
       Call.sendPacket 2, Call.freeBlock 2] :=
  network_send_alloc_failure_then_retry (scriptedEnv tcpFrame 0 none)
    (scriptedState 0 0 0 0 57 tcpFrame 1) 2 (by decide) (by decide) (by decide) (by decide)

/-- C7 (as stated, refuted): in fresh-send mode with `uip_packet = 5` at entry
and a refused allocation, `network_send` reports failure and `uip_packet` is 0
(`NOBLOCK`) afterwards, not the value it had before the call. -/
theorem network_send_alloc_failure_changes_uip_packet :
    (scriptedState 5 5 0 UIPETHERNET_FREEPACKET 57 tcpFrame 1).packetstate
      &&& UIPETHERNET_SENDPACKET = 0 ∧
    ((scriptedEnv tcpFrame 0 none).allocBlock 57 1).1 = NOBLOCK ∧
    (network_send (scriptedEnv tcpFrame 0 none)
      (scriptedState 5 5 0 UIPETHERNET_FREEPACKET 57 tcpFrame 1)).1 = false ∧
    (scriptedState 5 5 0 UIPETHERNET_FREEPACKET 57 tcpFrame 1).uip_packet = 5 ∧
    (network_send (scriptedEnv tcpFrame 0 none)
      (scriptedState 5 5 0 UIPETHERNET_FREEPACKET 57 tcpFrame 1)).2.uip_packet = 0 ∧
    (network_send (scriptedEnv tcpFrame 0 none)
      (scriptedState 5 5 0 UIPETHERNET_FREEPACKET 57 tcpFrame 1)).2.uip_packet ≠
      (scriptedState 5 5 0 UIPETHERNET_FREEPACKET 57 tcpFrame 1).uip_packet := by
  decide

/-- C7 (amended): in fresh-send mode, if allocation fails then `network_send`
reports failure and `in_packet`, `uip_hdrlen`, `packetstate`, `uip_len` and the
staging buffer have the value they had before the call, while `uip_packet`
holds `NOBLOCK`, the result of the failed allocation. -/
theorem network_send_alloc_failure_state {σ : Type} (env : Env σ) (s : State σ)
    (hmode : s.packetstate &&& UIPETHERNET_SENDPACKET = 0)
    (hfail : (env.allocBlock s.uip_len s.ext).1 = NOBLOCK) :
    (network_send env s).1 = false ∧
    (network_send env s).2.in_packet = s.in_packet ∧
    (network_send env s).2.uip_hdrlen = s.uip_hdrlen ∧
    (network_send env s).2.packetstate = s.packetstate ∧
    (network_send env s).2.uip_len = s.uip_len ∧
    (network_send env s).2.uip_buf = s.uip_buf ∧
    (network_send env s).2.uip_packet = NOBLOCK := by
  obtain ⟨h1, _, hp, hin, hps, hhdr, hlen, hbuf, _⟩ :=
    network_send_alloc_fail env s hmode hfail
  exact ⟨h1, hin, hhdr, hps, hlen, hbuf, hp⟩

theorem network_send_alloc_failure_state_witness :
    (network_send (scriptedEnv tcpFrame 0 none)
      (scriptedState 5 5 54 UIPETHERNET_FREEPACKET 57 tcpFrame 1)).1 = false ∧
    (network_send (scriptedEnv tcpFrame 0 none)
      (scriptedState 5 5 54 UIPETHERNET_FREEPACKET 57 tcpFrame 1)).2.in_packet = 5 ∧
    (network_send (scriptedEnv tcpFrame 0 none)
      (scriptedState 5 5 54 UIPETHERNET_FREEPACKET 57 tcpFrame 1)).2.uip_hdrlen = 54 ∧
    (network_send (scriptedEnv tcpFrame 0 none)
      (scriptedState 5 5 54 UIPETHERNET_FREEPACKET 57 tcpFrame 1)).2.packetstate
      = UIPETHERNET_FREEPACKET ∧
    (network_send (scriptedEnv tcpFrame 0 none)
      (scriptedState 5 5 54 UIPETHERNET_FREEPACKET 57 tcpFrame 1)).2.uip_len = 57 ∧
    (network_send (scriptedEnv tcpFrame 0 none)
      (scriptedState 5 5 54 UIPETHERNET_FREEPACKET 57 tcpFrame 1)).2.uip_buf = tcpFrame ∧
    (network_send (scriptedEnv tcpFrame 0 none)
      (scriptedState 5 5 54 UIPETHERNET_FREEPACKET 57 tcpFrame 1)).2.uip_packet = NOBLOCK :=
  network_send_alloc_failure_state (scriptedEnv tcpFrame 0 none)
    (scriptedState 5 5 54 UIPETHERNET_FREEPACKET 57 tcpFrame 1) (by decide) (by decide)

/-- C8: in reply mode `network_send` returns true and the calls it issues are
exactly: a write of the first `uip_hdrlen` bytes of the staging buffer at offset
0 of the handle held in `uip_packet` at entry, the transmit of that handle and
the release of that handle; no allocation is requested. -/
theorem network_send_reply_mode {σ : Type} (env : Env σ) (s : State σ)
    (hmode : s.packetstate &&& UIPETHERNET_SENDPACKET ≠ 0) :
    (network_send env s).1 = true ∧
    issued s (network_send env s).2 =
      [Call.writePacket s.uip_packet 0 (s.uip_buf.take s.uip_hdrlen) s.uip_hdrlen,
       Call.sendPacket s.uip_packet, Call.freeBlock s.uip_packet] ∧
    (issued s (network_send env s).2).countP Call.isAlloc = 0 := by
  obtain ⟨h1, ht, _⟩ := network_send_reply env s hmode
  rw [issued_of_trace s _ _ ht]
  exact ⟨h1, rfl, by simp [Call.isAlloc]⟩

theorem network_send_reply_mode_witness :
    (network_send (scriptedEnv tcpFrame 0 none)
      (scriptedState 1 1 54 3 57 tcpStaging 1)).1 = true ∧
    issued (scriptedState 1 1 54 3 57 tcpStaging 1)
      (network_send (scriptedEnv tcpFrame 0 none) (scriptedState 1 1 54 3 57 tcpStaging 1)).2 =
      [Call.writePacket 1 0 (tcpStaging.take 54) 54, Call.sendPacket 1, Call.freeBlock 1] ∧
    (issued (scriptedState 1 1 54 3 57 tcpStaging 1)
      (network_send (scriptedEnv tcpFrame 0 none)
        (scriptedState 1 1 54 3 57 tcpStaging 1)).2).countP Call.isAlloc = 0 :=
  network_send_reply_mode (scriptedEnv tcpFrame 0 none) (scriptedState 1 1 54 3 57 tcpStaging 1)
    (by decide)

/-! ## Lemmas on the packet scheduler -/

theorem tick_receive_trace {σ : Type} (env : Env σ) (s : State σ) :
    (tick_receive env s).trace =
      s.trace ++ (if s.in_packet = NOBLOCK then [Call.receivePacket] else []) := by
  unfold tick_receive
  split <;> simp

theorem tick_loaded_facts {σ : Type} (env : Env σ) (s : State σ) :
    (tick_loaded env s).trace = (tick_receive env s).trace ++
      [Call.blockSize (tick_receive env s).in_packet,
       Call.readPacket (tick_receive env s).in_packet 0 env.UIP_BUFSIZE] ∧
    (tick_loaded env s).in_packet = (tick_receive env s).in_packet ∧
    (tick_loaded env s).packetstate = UIPETHERNET_FREEPACKET ∧
    (tick_loaded env s).uip_len = (tick_size env (tick_receive env s)).uip_len := by
  simp [tick_loaded, tick_read, tick_size]

theorem tick_ip_input_facts {σ : Type} (env : Env σ) (x : State σ) :
    (tick_ip_input env x).trace = x.trace ++ [Call.uip_arp_ipin, Call.uip_input] ∧
    (tick_ip_input env x).in_packet = x.in_packet := by
  simp [tick_ip_input, callEngine]

theorem tick_arp_input_facts {σ : Type} (env : Env σ) (x : State σ) :
    (tick_arp_input env x).trace = x.trace ++ [Call.uip_arp_arpin] ∧
    (tick_arp_input env x).in_packet = x.in_packet := by
  simp [tick_arp_input, callEngine]

theorem tick_free_trace {σ : Type} (env : Env σ) (x : State σ) :
    (tick_free env x).trace = x.trace ++
      (if x.in_packet ≠ NOBLOCK ∧ x.packetstate &&& UIPETHERNET_FREEPACKET ≠ 0
        then [Call.freePacket] else []) := by
  unfold tick_free
  split <;> simp

theorem tick_free_held {σ : Type} (env : Env σ) (x : State σ)
    (hin : x.in_packet ≠ NOBLOCK) (hps : x.packetstate = UIPETHERNET_FREEPACKET) :
    (tick_free env x).trace = x.trace ++ [Call.freePacket] ∧
    (tick_free env x).in_packet = NOBLOCK := by
  have hflag : x.packetstate &&& UIPETHERNET_FREEPACKET ≠ 0 := by
    rw [hps]
    decide
  unfold tick_free
  simp [hin, hflag]

theorem tick_periodic_not_expired {σ : Type} (env : Env σ) (x : State σ)
    (h : (env.uip_timer_expired x.ext).1 = false) :
    (tick_periodic env x).trace = x.trace ++ [Call.uip_timer_expired] ∧
    (tick_periodic env x).in_packet = x.in_packet := by
  unfold tick_periodic
  simp [h]

theorem tick_inbound_held {σ : Type} (env : Env σ) (s : State σ)
    (hrecv : (tick_receive env s).in_packet ≠ NOBLOCK)
    (hsize : 0 < (tick_size env (tick_receive env s)).uip_len) :
    tick_inbound env (tick_receive env s) =
      tick_free env
        (if ethTypeIs (tick_loaded env s).uip_buf UIP_ETHTYPE_IP then
          tick_ip env (tick_loaded env s)
        else if ethTypeIs (tick_loaded env s).uip_buf UIP_ETHTYPE_ARP then
          tick_arp env (tick_loaded env s)
        else tick_loaded env s) := by
  unfold tick_inbound tick_dispatch tick_loaded
  simp only [hrecv, hsize, ne_eq, not_false_eq_true, if_true]

theorem ethType_arp_not_ip (uip_buf : List Nat) (h : ethTypeIs uip_buf UIP_ETHTYPE_ARP) :
    ¬ ethTypeIs uip_buf UIP_ETHTYPE_IP := by
  unfold ethTypeIs UIP_ETHTYPE_ARP at h
  unfold ethTypeIs UIP_ETHTYPE_IP
  omega

theorem receive_calls_count (c : Prop) [Decidable c] (p : Call → Bool)
    (hp : p Call.receivePacket = false) :
    List.countP p (if c then [Call.receivePacket] else []) = 0 := by
  split <;> simp [hp]

theorem free_calls_count (c : Prop) [Decidable c] (p : Call → Bool)
    (hp : p Call.freePacket = false) :
    List.countP p (if c then [Call.freePacket] else []) = 0 := by
  split <;> simp [hp]

theorem tick_arp_calls {σ : Type} (env : Env σ) (x : State σ) :
    ∃ N : List Call, (tick_arp env x).trace = (tick_arp_input env x).trace ++ N ∧
      N.countP Call.isArpIn = 0 ∧ N.countP Call.isArpOut = 0 ∧
      (0 < (tick_arp_input env x).uip_len →
        (((tick_arp_input env x).packetstate &&& UIPETHERNET_SENDPACKET ≠ 0 ∨
            (env.allocBlock (tick_arp_input env x).uip_len (tick_arp_input env x).ext).1
              ≠ NOBLOCK) → N.countP Call.isSend = 1) ∧
        (((tick_arp_input env x).packetstate &&& UIPETHERNET_SENDPACKET = 0 ∧
            (env.allocBlock (tick_arp_input env x).uip_len (tick_arp_input env x).ext).1
              = NOBLOCK) → N.countP Call.isSend = 0)) := by
  unfold tick_arp
  by_cases hlen : 0 < (tick_arp_input env x).uip_len
  · simp only [hlen, if_true]
    by_cases hmode : (tick_arp_input env x).packetstate &&& UIPETHERNET_SENDPACKET ≠ 0
    · obtain ⟨_, ht, _⟩ := network_send_reply env _ hmode
      refine ⟨_, ht, by simp [Call.isArpIn], by simp [Call.isArpOut], fun _ => ⟨fun _ => ?_, ?_⟩⟩
      · simp [Call.isSend]
      · rintro ⟨h0, _⟩
        exact absurd h0 hmode
    · have hmode0 : (tick_arp_input env x).packetstate &&& UIPETHERNET_SENDPACKET = 0 := by
        simpa using hmode
      by_cases hok : (env.allocBlock (tick_arp_input env x).uip_len
          (tick_arp_input env x).ext).1 ≠ NOBLOCK
      · obtain ⟨_, ht, _⟩ := network_send_alloc_ok env _ hmode0 hok
        refine ⟨_, ht, by simp [Call.isArpIn], by simp [Call.isArpOut],
          fun _ => ⟨fun _ => ?_, ?_⟩⟩
        · simp [Call.isSend]
        · rintro ⟨_, h0⟩
          exact absurd h0 hok
      · have hfail : (env.allocBlock (tick_arp_input env x).uip_len
            (tick_arp_input env x).ext).1 = NOBLOCK := by
          simpa using hok
        obtain ⟨_, ht, _⟩ := network_send_alloc_fail env _ hmode0 hfail
        refine ⟨_, ht, by simp [Call.isArpIn], by simp [Call.isArpOut],
          fun _ => ⟨?_, fun _ => ?_⟩⟩
        · rintro (h0 | h0)
          · exact absurd h0 hmode
          · exact absurd h0 hok
        · simp [Call.isSend]
  · simp only [hlen, if_false]
    exact ⟨[], by simp, by simp, by simp, fun h => False.elim h⟩

/-! ## Claims on the packet scheduler -/

/-- C9: in a tick whose timer is not expired and which holds an inbound handle
of non-zero size, if the frame is a network-layer frame for which the inbound
steps of the protocol engine leave `uip_len = 0` and the packet state as it was,
or the frame is neither a network-layer nor an address-resolution frame, then
the tick issues exactly one `freePacket`, no `freeBlock`, no `sendPacket`, and
`in_packet` is `NOBLOCK` afterwards; for a frame of neither type no
protocol-engine step is called. -/
theorem tick_no_outbound_frees_once {σ : Type} (env : Env σ) (s : State σ)
    (hrecv : (tick_receive env s).in_packet ≠ NOBLOCK)
    (hsize : 0 < (tick_size env (tick_receive env s)).uip_len)
    (hcase : (ethTypeIs (tick_loaded env s).uip_buf UIP_ETHTYPE_IP ∧
        (tick_ip_input env (tick_loaded env s)).uip_len = 0 ∧
        (tick_ip_input env (tick_loaded env s)).packetstate = (tick_loaded env s).packetstate) ∨
      (¬ ethTypeIs (tick_loaded env s).uip_buf UIP_ETHTYPE_IP ∧
        ¬ ethTypeIs (tick_loaded env s).uip_buf UIP_ETHTYPE_ARP))
    (htimer : (env.uip_timer_expired (tick_inbound env (tick_receive env s)).ext).1 = false) :
    (issued s (tick env s)).countP Call.isFreePacket = 1 ∧
    (issued s (tick env s)).countP Call.isFreeBlock = 0 ∧
    (issued s (tick env s)).countP Call.isSend = 0 ∧
    (tick env s).in_packet = NOBLOCK ∧
    (¬ ethTypeIs (tick_loaded env s).uip_buf UIP_ETHTYPE_IP →
      (issued s (tick env s)).countP Call.isEngine = 0) := by
  obtain ⟨hLt, hLin, hLps, _⟩ := tick_loaded_facts env s
  obtain ⟨hPt, hPin⟩ := tick_periodic_not_expired env _ htimer
  have hinb := tick_inbound_held env s hrecv hsize
  have hR := tick_receive_trace env s
  rcases hcase with ⟨hip, hlen, hps⟩ | ⟨hnip, hnarp⟩
  · obtain ⟨hIt, hIin⟩ := tick_ip_input_facts env (tick_loaded env s)
    have hD : tick_inbound env (tick_receive env s)
        = tick_free env (tick_ip_input env (tick_loaded env s)) := by
      rw [hinb]
      unfold tick_ip
      simp only [hip, hlen, if_true, Nat.lt_irrefl, if_false]
    obtain ⟨hFt, hFin⟩ := tick_free_held env (tick_ip_input env (tick_loaded env s))
      (by rw [hIin, hLin]; exact hrecv) (by rw [hps, hLps])
    have htrace : (tick env s).trace = s.trace ++
        ((if s.in_packet = NOBLOCK then [Call.receivePacket] else []) ++
          [Call.blockSize (tick_receive env s).in_packet,
           Call.readPacket (tick_receive env s).in_packet 0 env.UIP_BUFSIZE,
           Call.uip_arp_ipin, Call.uip_input, Call.freePacket, Call.uip_timer_expired]) := by
      unfold tick
      rw [hPt, hD, hFt, hIt, hLt, hR]
      simp
    rw [issued_of_trace s _ _ htrace]
    refine ⟨?_, ?_, ?_, ?_, fun h => absurd hip h⟩
    · rw [List.countP_append, receive_calls_count _ _ rfl]
      simp [Call.isFreePacket]
    · rw [List.countP_append, receive_calls_count _ _ rfl]
      simp [Call.isFreeBlock]
    · rw [List.countP_append, receive_calls_count _ _ rfl]
      simp [Call.isSend]
    · unfold tick
      rw [hPin, hD, hFin]
  · have hD : tick_inbound env (tick_receive env s) = tick_free env (tick_loaded env s) := by
      rw [hinb]
      simp only [hnip, hnarp, if_false]
    obtain ⟨hFt, hFin⟩ := tick_free_held env (tick_loaded env s)
      (by rw [hLin]; exact hrecv) hLps
    have htrace : (tick env s).trace = s.trace ++
        ((if s.in_packet = NOBLOCK then [Call.receivePacket] else []) ++
          [Call.blockSize (tick_receive env s).in_packet,
           Call.readPacket (tick_receive env s).in_packet 0 env.UIP_BUFSIZE,
           Call.freePacket, Call.uip_timer_expired]) := by
      unfold tick
      rw [hPt, hD, hFt, hLt, hR]
      simp
    rw [issued_of_trace s _ _ htrace]
    refine ⟨?_, ?_, ?_, ?_, fun _ => ?_⟩
    · rw [List.countP_append, receive_calls_count _ _ rfl]
      simp [Call.isFreePacket]
    · rw [List.countP_append, receive_calls_count _ _ rfl]
      simp [Call.isFreeBlock]
    · rw [List.countP_append, receive_calls_count _ _ rfl]
      simp [Call.isSend]
    · unfold tick
      rw [hPin, hD, hFin]
    · rw [List.countP_append, receive_calls_count _ _ rfl]
      simp [Call.isEngine]

theorem tick_no_outbound_frees_once_witness :
    (issued (scriptedState 0 0 0 0 0 [] 0)
      (tick (scriptedEnv tcpFrame 0 none) (scriptedState 0 0 0 0 0 [] 0))).countP
      Call.isFreePacket = 1 ∧
    (issued (scriptedState 0 0 0 0 0 [] 0)
      (tick (scriptedEnv tcpFrame 0 none) (scriptedState 0 0 0 0 0 [] 0))).countP
      Call.isFreeBlock = 0 ∧
    (issued (scriptedState 0 0 0 0 0 [] 0)
      (tick (scriptedEnv tcpFrame 0 none) (scriptedState 0 0 0 0 0 [] 0))).countP
      Call.isSend = 0 ∧
    (tick (scriptedEnv tcpFrame 0 none) (scriptedState 0 0 0 0 0 [] 0)).in_packet = NOBLOCK ∧
    (¬ ethTypeIs (tick_loaded (scriptedEnv tcpFrame 0 none)
        (scriptedState 0 0 0 0 0 [] 0)).uip_buf UIP_ETHTYPE_IP →
      (issued (scriptedState 0 0 0 0 0 [] 0)
        (tick (scriptedEnv tcpFrame 0 none) (scriptedState 0 0 0 0 0 [] 0))).countP
        Call.isEngine = 0) :=
  tick_no_outbound_frees_once (scriptedEnv tcpFrame 0 none) (scriptedState 0 0 0 0 0 [] 0)
    (by decide) (by decide) (Or.inl ⟨by decide, by decide, by decide⟩) (by decide)

/-- C10 (as stated, refuted): a tick receives handle 1 holding an
address-resolution frame, the timer is not expired, `uip_arp_arpin` leaves
`uip_len = 42`, and the allocation in `network_send` is refused: no
`sendPacket` is issued during the tick. -/
theorem tick_arp_alloc_refused_no_transmit :
    (tick_receive (scriptedEnv arpFrame 42 none) (scriptedState 0 0 0 0 0 [] 1)).in_packet
      ≠ NOBLOCK ∧
    0 < (tick_size (scriptedEnv arpFrame 42 none)
      (tick_receive (scriptedEnv arpFrame 42 none) (scriptedState 0 0 0 0 0 [] 1))).uip_len ∧
    ethTypeIs (tick_loaded (scriptedEnv arpFrame 42 none)
      (scriptedState 0 0 0 0 0 [] 1)).uip_buf UIP_ETHTYPE_ARP ∧
    ((scriptedEnv arpFrame 42 none).uip_timer_expired
      (tick_inbound (scriptedEnv arpFrame 42 none)
        (tick_receive (scriptedEnv arpFrame 42 none)
          (scriptedState 0 0 0 0 0 [] 1))).ext).1 = false ∧
    0 < (tick_arp_input (scriptedEnv arpFrame 42 none)
      (tick_loaded (scriptedEnv arpFrame 42 none) (scriptedState 0 0 0 0 0 [] 1))).uip_len ∧
    (issued (scriptedState 0 0 0 0 0 [] 1)
      (tick (scriptedEnv arpFrame 42 none) (scriptedState 0 0 0 0 0 [] 1))).countP
      Call.isSend = 0 ∧
    issued (scriptedState 0 0 0 0 0 [] 1)
      (tick (scriptedEnv arpFrame 42 none) (scriptedState 0 0 0 0 0 [] 1)) =
      [Call.receivePacket, Call.blockSize 1, Call.readPacket 1 0 98, Call.uip_arp_arpin,
       Call.allocBlock 42, Call.freePacket, Call.uip_timer_expired] := by
  decide

/-- C10 (amended): in a tick whose timer is not expired and which holds an
inbound handle of non-zero size with an address-resolution frame,
`uip_arp_arpin` is called exactly once and `uip_arp_out` is never called; if
`uip_arp_arpin` leaves `uip_len > 0`, then `sendPacket` is called exactly once
during the tick when the packet state carries the reuse flag or the allocation
in `network_send` returns a handle, and not at all when that allocation is
refused. -/
theorem tick_arp_frame {σ : Type} (env : Env σ) (s : State σ)
    (hrecv : (tick_receive env s).in_packet ≠ NOBLOCK)
    (hsize : 0 < (tick_size env (tick_receive env s)).uip_len)
    (harp : ethTypeIs (tick_loaded env s).uip_buf UIP_ETHTYPE_ARP)
    (htimer : (env.uip_timer_expired (tick_inbound env (tick_receive env s)).ext).1 = false) :
    (issued s (tick env s)).countP Call.isArpIn = 1 ∧
    (issued s (tick env s)).countP Call.isArpOut = 0 ∧
    (0 < (tick_arp_input env (tick_loaded env s)).uip_len →
      (((tick_arp_input env (tick_loaded env s)).packetstate &&& UIPETHERNET_SENDPACKET ≠ 0 ∨
          (env.allocBlock (tick_arp_input env (tick_loaded env s)).uip_len
            (tick_arp_input env (tick_loaded env s)).ext).1 ≠ NOBLOCK) →
        (issued s (tick env s)).countP Call.isSend = 1) ∧
      (((tick_arp_input env (tick_loaded env s)).packetstate &&& UIPETHERNET_SENDPACKET = 0 ∧
          (env.allocBlock (tick_arp_input env (tick_loaded env s)).uip_len
            (tick_arp_input env (tick_loaded env s)).ext).1 = NOBLOCK) →
        (issued s (tick env s)).countP Call.isSend = 0)) := by
  obtain ⟨hLt, _, _, _⟩ := tick_loaded_facts env s
  obtain ⟨hPt, _⟩ := tick_periodic_not_expired env _ htimer
  obtain ⟨hAt, _⟩ := tick_arp_input_facts env (tick_loaded env s)
  obtain ⟨N, hN, hNin, hNout, hNsend⟩ := tick_arp_calls env (tick_loaded env s)
  have hR := tick_receive_trace env s
  have hD : tick_inbound env (tick_receive env s)
      = tick_free env (tick_arp env (tick_loaded env s)) := by
    rw [tick_inbound_held env s hrecv hsize]
    simp only [ethType_arp_not_ip _ harp, harp, if_false, if_true]
  have htrace : (tick env s).trace = s.trace ++
      ((if s.in_packet = NOBLOCK then [Call.receivePacket] else []) ++
        ([Call.blockSize (tick_receive env s).in_packet,
          Call.readPacket (tick_receive env s).in_packet 0 env.UIP_BUFSIZE,
          Call.uip_arp_arpin] ++
        (N ++
        ((if (tick_arp env (tick_loaded env s)).in_packet ≠ NOBLOCK ∧
            (tick_arp env (tick_loaded env s)).packetstate &&& UIPETHERNET_FREEPACKET ≠ 0
          then [Call.freePacket] else []) ++
        [Call.uip_timer_expired])))) := by
    unfold tick
    rw [hPt, hD, tick_free_trace, hN, hAt, hLt, hR]
    simp
  have hcount : ∀ p : Call → Bool, p Call.receivePacket = false → p Call.freePacket = false →
      (issued s (tick env s)).countP p =
        List.countP p [Call.blockSize (tick_receive env s).in_packet,
          Call.readPacket (tick_receive env s).in_packet 0 env.UIP_BUFSIZE,
          Call.uip_arp_arpin] + (N.countP p + List.countP p [Call.uip_timer_expired]) := by
    intro p h1 h2
    rw [issued_of_trace s _ _ htrace, List.countP_append, List.countP_append,
      List.countP_append, List.countP_append, receive_calls_count _ _ h1,
      free_calls_count _ _ h2]
    omega
  refine ⟨?_, ?_, fun hlen => ⟨fun h => ?_, fun h => ?_⟩⟩
  · rw [hcount _ rfl rfl, hNin]
    simp [Call.isArpIn]
  · rw [hcount _ rfl rfl, hNout]
    simp [Call.isArpOut]
  · rw [hcount _ rfl rfl, (hNsend hlen).1 h]
    simp [Call.isSend]
  · rw [hcount _ rfl rfl, (hNsend hlen).2 h]
    simp [Call.isSend]

theorem tick_arp_frame_witness :
    (issued (scriptedState 0 0 0 0 0 [] 0)
      (tick (scriptedEnv arpFrame 42 none) (scriptedState 0 0 0 0 0 [] 0))).countP
      Call.isArpIn = 1 ∧
    (issued (scriptedState 0 0 0 0 0 [] 0)
      (tick (scriptedEnv arpFrame 42 none) (scriptedState 0 0 0 0 0 [] 0))).countP
      Call.isArpOut = 0 ∧
    (0 < (tick_arp_input (scriptedEnv arpFrame 42 none)
        (tick_loaded (scriptedEnv arpFrame 42 none) (scriptedState 0 0 0 0 0 [] 0))).uip_len →
      (((tick_arp_input (scriptedEnv arpFrame 42 none)
            (tick_loaded (scriptedEnv arpFrame 42 none)
              (scriptedState 0 0 0 0 0 [] 0))).packetstate &&& UIPETHERNET_SENDPACKET ≠ 0 ∨
          ((scriptedEnv arpFrame 42 none).allocBlock
            (tick_arp_input (scriptedEnv arpFrame 42 none)
              (tick_loaded (scriptedEnv arpFrame 42 none)
                (scriptedState 0 0 0 0 0 [] 0))).uip_len
            (tick_arp_input (scriptedEnv arpFrame 42 none)
              (tick_loaded (scriptedEnv arpFrame 42 none)
                (scriptedState 0 0 0 0 0 [] 0))).ext).1 ≠ NOBLOCK) →
        (issued (scriptedState 0 0 0 0 0 [] 0)
          (tick (scriptedEnv arpFrame 42 none) (scriptedState 0 0 0 0 0 [] 0))).countP
          Call.isSend = 1) ∧
      (((tick_arp_input (scriptedEnv arpFrame 42 none)
            (tick_loaded (scriptedEnv arpFrame 42 none)
              (scriptedState 0 0 0 0 0 [] 0))).packetstate &&& UIPETHERNET_SENDPACKET = 0 ∧
          ((scriptedEnv arpFrame 42 none).allocBlock
            (tick_arp_input (scriptedEnv arpFrame 42 none)
              (tick_loaded (scriptedEnv arpFrame 42 none)
                (scriptedState 0 0 0 0 0 [] 0))).uip_len
            (tick_arp_input (scriptedEnv arpFrame 42 none)
              (tick_loaded (scriptedEnv arpFrame 42 none)
                (scriptedState 0 0 0 0 0 [] 0))).ext).1 = NOBLOCK) →
        (issued (scriptedState 0 0 0 0 0 [] 0)
          (tick (scriptedEnv arpFrame 42 none) (scriptedState 0 0 0 0 0 [] 0))).countP
          Call.isSend = 0)) :=
  tick_arp_frame (scriptedEnv arpFrame 42 none) (scriptedState 0 0 0 0 0 [] 0)
    (by decide) (by decide) (by decide) (by decide)

/-! ## Further lemmas on the checksum engine -/

theorem wordSum_append_odd_single (D : List Nat) (p : Nat) (hodd : D.length % 2 = 1) :
    wordSum (D ++ [p]) = wordSum D + p := by
  induction D using wordSum.induct with
  | case1 => simp at hodd
  | case2 b => simp [wordSum]
  | case3 b0 b1 rest ih =>
    have hrest : rest.length % 2 = 1 := by
      simp only [List.length_cons] at hodd
      omega
    rw [List.cons_append, List.cons_append, wordSum, wordSum, ih hrest]
    omega

theorem onesNorm_add_ne (x p : Nat) (hp0 : 0 < p) (hp : p < 65535) :
    onesNorm (x + p) ≠ onesNorm x := by
  unfold onesNorm
  split <;> split <;> omega

theorem bytes_append_single (D : List Nat) (p : Nat) (hD : ∀ b ∈ D, b < 256) (hp : p < 256) :
    ∀ b ∈ D ++ [p], b < 256 := by
  intro b hb
  rcases List.mem_append.1 hb with h | h
  · exact hD b h
  · simp only [List.mem_singleton] at h
    omega

theorem bytes_set (D : List Nat) (i a : Nat) (hD : ∀ b ∈ D, b < 256) (ha : a < 256) :
    ∀ b ∈ D.set i a, b < 256 := by
  intro b hb
  rcases List.mem_or_eq_of_mem_set hb with h | h
  · exact hD b h
  · omega

theorem bytes_setWord (D : List Nat) (i w : Nat) (hD : ∀ b ∈ D, b < 256) (hw : w < 65536) :
    ∀ b ∈ setWord D i w, b < 256 := by
  unfold setWord
  exact bytes_set _ _ _ (bytes_set _ _ _ hD (by omega)) (by omega)

theorem wordSum_set_pair : ∀ (D : List Nat) (i a b : Nat), i % 2 = 0 → i + 1 < D.length →
    wordSum ((D.set i a).set (i + 1) b) + (D.getD i 0 * 256 + D.getD (i + 1) 0)
      = wordSum D + (a * 256 + b)
  | [], _, _, _, _, h => by simp at h
  | [_], _, _, _, _, h => by simp at h
  | b0 :: b1 :: rest, 0, a, b, _, _ => by
    simp only [List.set_cons_zero, Nat.zero_add, List.set_cons_succ, wordSum,
      List.getD_cons_zero, List.getD_cons_succ]
    omega
  | _ :: _ :: _, 1, _, _, h, _ => by simp at h
  | b0 :: b1 :: rest, j + 2, a, b, hi, hlen => by
    have ih := wordSum_set_pair rest j a b (by omega)
      (by simp only [List.length_cons] at hlen; omega)
    simp only [List.set_cons_succ, wordSum, List.getD_cons_succ]
    omega

theorem wordSum_setWord (D : List Nat) (i w : Nat) (hi : i % 2 = 0) (hlen : i + 1 < D.length) :
    wordSum (setWord D i w) + (D.getD i 0 * 256 + D.getD (i + 1) 0) = wordSum D + w := by
  unfold setWord
  have h := wordSum_set_pair D i (w / 256) (w % 256) hi hlen
  have := Nat.div_add_mod w 256
  omega

theorem setWord_getD (D : List Nat) (i w : Nat) (hlen : i + 1 < D.length) :
    (setWord D i w).getD i 0 = w / 256 ∧ (setWord D i w).getD (i + 1) 0 = w % 256 := by
  unfold setWord
  constructor
  · rw [List.getD_eq_getElem _ _ (by simp only [List.length_set]; omega)]
    rw [List.getElem_set_ne (by omega), List.getElem_set_self]
  · rw [List.getD_eq_getElem _ _ (by simp only [List.length_set]; omega)]
    rw [List.getElem_set_self]

theorem setWord_length (D : List Nat) (i w : Nat) : (setWord D i w).length = D.length := by
  unfold setWord
  simp

theorem chksum_of_field (D : List Nat) (i : Nat) (hbytes : ∀ b ∈ D, b < 256)
    (hi : i % 2 = 0) (hlen : i + 1 < D.length)
    (hhi : D.getD i 0 = complement16 (chksum 0 (setWord D i 0)) / 256)
    (hlo : D.getD (i + 1) 0 = complement16 (chksum 0 (setWord D i 0)) % 256) :
    chksum 0 D = 0xFFFF := by
  have h0 := chksum_eq_onesNorm 0 (setWord D i 0) (by decide)
    (bytes_setWord D i 0 hbytes (by decide))
  have hlt := onesNorm_lt (0 + wordSum (setWord D i 0))
  have hw := wordSum_setWord D i 0 hi hlen
  have hdm := Nat.div_add_mod (complement16 (chksum 0 (setWord D i 0))) 256
  have hsum : wordSum D = wordSum (setWord D i 0) + complement16 (chksum 0 (setWord D i 0)) := by
    omega
  rw [chksum_eq_onesNorm 0 D (by decide) hbytes, Nat.zero_add, hsum, ← onesNorm_add]
  rw [h0, Nat.zero_add] at *
  unfold complement16
  rw [show onesNorm (wordSum (setWord D i 0)) + (0xFFFF - onesNorm (wordSum (setWord D i 0)))
    = 65535 by omega]
  decide

/-! ## Further claims on the checksum engine -/

/-- C13: for every 16-bit seed and every odd-length sequence of bytes `D`,
`chksum seed D = chksum seed (D ++ [0])`; padding with a non-zero byte `p`
instead turns the last word into `b * 256 + p` and changes the checksum; and
`chksum 0 [0x12] = 0x1200`. -/
theorem chksum_odd_trailing_byte (seed : Nat) (D : List Nat)
    (hseed : seed < 65536) (hbytes : ∀ b ∈ D, b < 256) (hodd : D.length % 2 = 1) :
    chksum seed D = chksum seed (D ++ [0]) ∧
    (∀ p, 0 < p → p < 256 →
      wordSum (D ++ [p]) = wordSum D + p ∧ chksum seed (D ++ [p]) ≠ chksum seed D) ∧
    chksum 0 [0x12] = 0x1200 := by
  refine ⟨?_, ?_, by decide⟩
  · have hpad : padEven D = D ++ [0] := by
      unfold padEven
      simp [hodd]
    rw [← hpad, chksum_padEven]
  · intro p hp0 hp
    have hw := wordSum_append_odd_single D p hodd
    refine ⟨hw, ?_⟩
    rw [chksum_eq_onesNorm seed _ hseed (bytes_append_single D p hbytes hp),
      chksum_eq_onesNorm seed D hseed hbytes, hw, ← Nat.add_assoc]
    exact onesNorm_add_ne _ p hp0 (by omega)

theorem chksum_odd_trailing_byte_witness :
    chksum 0xFFFF [0x12, 0x34, 0x56] = chksum 0xFFFF ([0x12, 0x34, 0x56] ++ [0]) ∧
    (∀ p, 0 < p → p < 256 →
      wordSum ([0x12, 0x34, 0x56] ++ [p]) = wordSum [0x12, 0x34, 0x56] + p ∧
      chksum 0xFFFF ([0x12, 0x34, 0x56] ++ [p]) ≠ chksum 0xFFFF [0x12, 0x34, 0x56]) ∧
    chksum 0 [0x12] = 0x1200 :=
  chksum_odd_trailing_byte 0xFFFF [0x12, 0x34, 0x56] (by decide) (by decide) (by decide)

/-- C14 (as stated, refuted): on the header of `tcpFrame` the sum is `0x5ABA`;
`ipchksum` returns its byte swap `0xBA5A`, while the byte swap of the bitwise
complement `0xA545` is `0x45A5`. -/
theorem ipchksum_not_complemented :
    chksum 0 (slice tcpFrame 14 20) = 0x5ABA ∧
    ipchksum tcpFrame = 0xBA5A ∧
    htons (complement16 (chksum 0 (slice tcpFrame 14 20))) = 0x45A5 ∧
    ipchksum tcpFrame ≠ htons (complement16 (chksum 0 (slice tcpFrame 14 20))) := by
  decide

/-- C14 (amended): for every staging buffer of bytes, `ipchksum` returns the
network byte order form of the one's-complement sum of the 20 header bytes
itself, not complemented: with `S` that sum, reported as `0xFFFF` when it is
zero, the low byte of the result is `S / 256` and its high byte is `S % 256`. -/
theorem ipchksum_swapped_sum (uip_buf : List Nat) (hbytes : ∀ b ∈ uip_buf, b < 256) :
    chksum 0 (slice uip_buf 14 20) = onesNorm (wordSum (slice uip_buf 14 20)) ∧
    ipchksum uip_buf = wireForm (chksum 0 (slice uip_buf 14 20)) ∧
    ipchksum uip_buf % 256 =
      (if chksum 0 (slice uip_buf 14 20) = 0 then 0xFFFF
        else chksum 0 (slice uip_buf 14 20)) / 256 ∧
    ipchksum uip_buf / 256 =
      (if chksum 0 (slice uip_buf 14 20) = 0 then 0xFFFF
        else chksum 0 (slice uip_buf 14 20)) % 256 := by
  have hlt := chksum_lt 0 (slice uip_buf 14 20) (by decide)
  have hsum := chksum_eq_onesNorm 0 (slice uip_buf 14 20) (by decide)
    (fun b hb => hbytes b (slice_mem _ _ _ _ hb))
  rw [Nat.zero_add] at hsum
  refine ⟨hsum, rfl, ?_, ?_⟩
  · unfold ipchksum htons
    simp only [UIP_LLH_LEN, UIP_IPH_LEN]
    split <;> omega
  · unfold ipchksum htons
    simp only [UIP_LLH_LEN, UIP_IPH_LEN]
    split <;> omega

theorem ipchksum_swapped_sum_witness :
    chksum 0 (slice tcpFrame 14 20) = onesNorm (wordSum (slice tcpFrame 14 20)) ∧
    ipchksum tcpFrame = wireForm (chksum 0 (slice tcpFrame 14 20)) ∧
    ipchksum tcpFrame % 256 =
      (if chksum 0 (slice tcpFrame 14 20) = 0 then 0xFFFF
        else chksum 0 (slice tcpFrame 14 20)) / 256 ∧
    ipchksum tcpFrame / 256 =
      (if chksum 0 (slice tcpFrame 14 20) = 0 then 0xFFFF
        else chksum 0 (slice tcpFrame 14 20)) % 256 :=
  ipchksum_swapped_sum tcpFrame (by decide)

/-- C19: for every seed, every even-length sequence `A` and every sequence `B`,
`chksum (chksum seed A) B = chksum seed (A ++ B)`: continuing a running sum is
exact when the split falls on a 16-bit word boundary. -/
theorem chksum_split_on_word_boundary (seed : Nat) (A B : List Nat)
    (hA : A.length % 2 = 0) :
    chksum (chksum seed A) B = chksum seed (A ++ B) :=
  chksum_append_even seed A B hA

theorem chksum_split_on_word_boundary_witness :
    chksum (chksum 0xFFFF [0x12, 0x34]) [0x56, 0x78, 0x9A]
      = chksum 0xFFFF ([0x12, 0x34] ++ [0x56, 0x78, 0x9A]) :=
  chksum_split_on_word_boundary 0xFFFF [0x12, 0x34] [0x56, 0x78, 0x9A] (by decide)

/-- C20: for every even-length sequence of bytes `D` and even offset `i < |D|`,
with `D0` being `D` with bytes `i`, `i + 1` zeroed and `c` the 16-bit complement
of `chksum 0 D0`, the sequence `D0` with `c` stored big-endian at `i`, `i + 1`
sums to `0xFFFF`; hence `ipchksum` returns `0xFFFF` for every staging buffer
whose header checksum field holds the complement of the sum of the other
header words. -/
theorem chksum_with_complement_field (D : List Nat) (i : Nat)
    (hbytes : ∀ b ∈ D, b < 256) (hD : D.length % 2 = 0) (hi : i % 2 = 0) (hlt : i < D.length) :
    chksum 0 (setWord (setWord D i 0) i (complement16 (chksum 0 (setWord D i 0)))) = 0xFFFF ∧
    (∀ uip_buf : List Nat, (∀ b ∈ uip_buf, b < 256) → 34 ≤ uip_buf.length →
      uip_buf.getD 24 0 =
        complement16 (chksum 0 (setWord (slice uip_buf 14 20) 10 0)) / 256 →
      uip_buf.getD 25 0 =
        complement16 (chksum 0 (setWord (slice uip_buf 14 20) 10 0)) % 256 →
      ipchksum uip_buf = 0xFFFF) := by
  have hlen : i + 1 < D.length := by omega
  constructor
  · have hb0 := bytes_setWord D i 0 hbytes (by decide)
    have hl0 : i + 1 < (setWord D i 0).length := by
      rw [setWord_length]
      exact hlen
    have hc : complement16 (chksum 0 (setWord D i 0)) < 65536 := by
      unfold complement16
      omega
    have hw := wordSum_setWord (setWord D i 0) i (complement16 (chksum 0 (setWord D i 0))) hi hl0
    obtain ⟨hg0, hg1⟩ := setWord_getD D i 0 hlen
    rw [hg0, hg1] at hw
    have h0 := chksum_eq_onesNorm 0 (setWord D i 0) (by decide) hb0
    rw [chksum_eq_onesNorm 0 _ (by decide) (bytes_setWord _ i _ hb0 hc), Nat.zero_add,
      show wordSum (setWord (setWord D i 0) i (complement16 (chksum 0 (setWord D i 0))))
        = wordSum (setWord D i 0) + complement16 (chksum 0 (setWord D i 0)) by omega,
      ← onesNorm_add]
    rw [Nat.zero_add] at h0
    have hlt2 := onesNorm_lt (wordSum (setWord D i 0))
    rw [h0]
    unfold complement16
    rw [show onesNorm (wordSum (setWord D i 0)) + (0xFFFF - onesNorm (wordSum (setWord D i 0)))
      = 65535 by omega]
    decide
  · intro uip_buf hb hl hhi hlo
    have hsl : (slice uip_buf 14 20).length = 20 := slice_length uip_buf 14 20 (by omega)
    have hget : ∀ k, k < 20 → (slice uip_buf 14 20).getD k 0 = uip_buf.getD (14 + k) 0 := by
      intro k hk
      unfold slice
      rw [List.getD_eq_getElem _ _ (by rw [List.length_take, List.length_drop]; omega),
        List.getElem_take, List.getElem_drop]
      exact (List.getD_eq_getElem _ _ (by omega)).symm
    have hsum : chksum 0 (slice uip_buf 14 20) = 0xFFFF :=
      chksum_of_field (slice uip_buf 14 20) 10 (fun b h => hb b (slice_mem _ _ _ _ h))
        (by decide) (by omega) (by rw [hget 10 (by decide)]; exact hhi)
        (by rw [hget 11 (by decide)]; exact hlo)
    unfold ipchksum
    simp only [UIP_LLH_LEN, UIP_IPH_LEN, hsum]
    decide

theorem chksum_with_complement_field_witness :
    chksum 0 (setWord (setWord (slice tcpFrame 14 20) 10 0) 10
      (complement16 (chksum 0 (setWord (slice tcpFrame 14 20) 10 0)))) = 0xFFFF ∧
    ipchksum (setWord tcpFrame 24 0xA545) = 0xFFFF :=
  ⟨(chksum_with_complement_field (slice tcpFrame 14 20) 10
      (by decide) (by decide) (by decide) (by decide)).1,
   (chksum_with_complement_field (slice tcpFrame 14 20) 10
      (by decide) (by decide) (by decide) (by decide)).2 (setWord tcpFrame 24 0xA545)
      (by decide) (by decide) (by decide) (by decide)⟩

/-! ## Further claims on the transport checksum -/

/-- The list of `network.chksum` invocations of `upper_layer_chksum`, in terms
of the variables of the code: one call when the 8-bit `upper_layer_memlen` is
below the 16-bit `upper_layer_len`, none otherwise. -/
theorem upper_layer_chksum_calls
    (net_chksum : Nat → Nat → Nat → Nat → Nat) (uip_buf : List Nat) (uip_packet proto : Nat)
    (hproto : proto = UIP_PROTO_ICMP ∨ proto = UIP_PROTO_TCP ∨ proto = UIP_PROTO_UDP) :
    ∃ memlen, upper_layer_memlen uip_buf proto = some memlen ∧
      (upper_layer_chksum_run net_chksum uip_buf uip_packet proto).map Prod.snd =
        some (if memlen < upper_layer_len uip_buf then
          [⟨chksum (chksum (upper_layer_sum0 uip_buf proto) (slice uip_buf 26 8))
              (slice uip_buf 34 memlen),
            uip_packet, 34 + memlen, upper_layer_len uip_buf - memlen⟩]
        else []) := by
  have hm : ∃ memlen, upper_layer_memlen uip_buf proto = some memlen := by
    unfold upper_layer_memlen
    rcases hproto with h | h | h <;> subst h <;>
      simp [UIP_PROTO_ICMP, UIP_PROTO_ICMP6, UIP_PROTO_TCP, UIP_PROTO_UDP]
  obtain ⟨memlen, hmem⟩ := hm
  refine ⟨memlen, hmem, ?_⟩
  unfold upper_layer_chksum_run upper_layer_sum0
  simp only [hmem, OFF_SRCIPADDR, UIP_IPH_LEN, UIP_LLH_LEN, Nat.reduceAdd]
  split <;> rfl

theorem upper_layer_len_of_valid (uip_buf : List Nat) (hbytes : ∀ b ∈ uip_buf, b < 256)
    (hT : 20 ≤ ipTotalLen uip_buf) :
    upper_layer_len uip_buf = ipTotalLen uip_buf - 20 ∧ ipTotalLen uip_buf < 65536 := by
  have h16 := getD_lt_256 uip_buf 16 hbytes
  have h17 := getD_lt_256 uip_buf 17 hbytes
  have hTdef : ipTotalLen uip_buf = uip_buf.getD 16 0 * 256 + uip_buf.getD 17 0 := rfl
  unfold upper_layer_len
  simp only [OFF_LEN, UIP_IPH_LEN, Nat.reduceAdd]
  omega

/-- For a total-length field `T` of at least 20, the header length, the
external partial checksum is invoked by `upper_layer_chksum` exactly when the
declared upper-layer length `T - 20` exceeds the memory-resident length, and
then once, with the running sum, `uip_packet`, offset `34 + memlen` and the
remaining length `T - 20 - memlen`. -/
theorem upper_layer_chksum_calls_of_valid_length
    (net_chksum : Nat → Nat → Nat → Nat → Nat) (uip_buf : List Nat) (uip_packet proto : Nat)
    (hproto : proto = UIP_PROTO_ICMP ∨ proto = UIP_PROTO_TCP ∨ proto = UIP_PROTO_UDP)
    (hbytes : ∀ b ∈ uip_buf, b < 256) (hT : 20 ≤ ipTotalLen uip_buf) :
    ∃ memlen, upper_layer_memlen uip_buf proto = some memlen ∧
      (upper_layer_chksum_run net_chksum uip_buf uip_packet proto).map Prod.snd =
        some (if memlen < ipTotalLen uip_buf - 20 then
          [⟨chksum (chksum (ipTotalLen uip_buf - 20 + proto) (slice uip_buf 26 8))
              (slice uip_buf 34 memlen),
            uip_packet, 34 + memlen, ipTotalLen uip_buf - 20 - memlen⟩]
        else []) := by
  obtain ⟨hlen, hlt⟩ := upper_layer_len_of_valid uip_buf hbytes hT
  have hp : proto ≤ 17 := by
    rcases hproto with h | h | h <;> rw [h] <;> decide
  obtain ⟨memlen, hmem, hcalls⟩ := upper_layer_chksum_calls net_chksum uip_buf uip_packet proto
    hproto
  refine ⟨memlen, hmem, ?_⟩
  rw [hcalls]
  unfold upper_layer_sum0
  rw [hlen, Nat.mod_eq_of_lt (by omega)]

/-- C16 (the code at the failing input): with a total-length field of 19 and a
transport header of 20 bytes in the buffer, the declared upper-layer length
`19 - 20` does not exceed the memory-resident length 20, yet `upper_layer_chksum`
invokes `network.chksum` for 65515 bytes from offset 54. -/
theorem upper_layer_chksum_short_length_delegates :
    ipTotalLen shortLenStaging = 19 ∧
    upper_layer_memlen shortLenStaging UIP_PROTO_TCP = some 20 ∧
    ¬ (20 + 20 < ipTotalLen shortLenStaging) ∧
    upper_layer_len shortLenStaging = 65535 ∧
    (upper_layer_chksum_run (fun sum _ _ _ => sum) shortLenStaging 9 UIP_PROTO_TCP).map
      Prod.snd = some [⟨56904, 9, 54, 65515⟩] := by
  decide

/-- C18 (the code at the failing input): with a total-length field of 19 the
16-bit `upper_layer_len` is 65535, and adding the protocol number 6 in 16 bits
gives 5, not the exact sum 65541. -/
theorem upper_layer_sum0_carries :
    ipTotalLen shortLenStaging = 19 ∧
    upper_layer_len shortLenStaging = 65535 ∧
    upper_layer_sum0 shortLenStaging UIP_PROTO_TCP = 5 ∧
    upper_layer_len shortLenStaging + UIP_PROTO_TCP = 65541 ∧
    upper_layer_sum0 shortLenStaging UIP_PROTO_TCP
      ≠ upper_layer_len shortLenStaging + UIP_PROTO_TCP := by
  decide

/-! ## Further lemmas on the packet scheduler -/

theorem network_send_calls {σ : Type} (env : Env σ) (s : State σ) :
    ∃ N : List Call, (network_send env s).2.trace = s.trace ++ N ∧
      (∀ c ∈ N, c.isSendPath = true) ∧
      (network_send env s).2.in_packet = s.in_packet ∧
      (network_send env s).2.packetstate = s.packetstate := by
  by_cases hmode : s.packetstate &&& UIPETHERNET_SENDPACKET ≠ 0
  · obtain ⟨_, ht, _, hin, hps⟩ := network_send_reply env s hmode
    exact ⟨_, ht, by simp [Call.isSendPath], hin, hps⟩
  · have hmode0 : s.packetstate &&& UIPETHERNET_SENDPACKET = 0 := by
      simpa using hmode
    by_cases hok : (env.allocBlock s.uip_len s.ext).1 ≠ NOBLOCK
    · obtain ⟨_, ht, _, hin, hps⟩ := network_send_alloc_ok env s hmode0 hok
      exact ⟨_, ht, by simp [Call.isSendPath], hin, hps⟩
    · have hfail : (env.allocBlock s.uip_len s.ext).1 = NOBLOCK := by
        simpa using hok
      obtain ⟨_, ht, _, hin, hps, _⟩ := network_send_alloc_fail env s hmode0 hfail
      exact ⟨_, ht, by simp [Call.isSendPath], hin, hps⟩

theorem filter_nil_of_forall (N : List Call) (p q : Call → Bool)
    (hN : ∀ c ∈ N, q c = true) (hp : ∀ c, q c = true → p c = false) : N.filter p = [] := by
  rw [List.filter_eq_nil_iff]
  intro c hc
  rw [hp c (hN c hc)]
  decide

theorem periodic_conn_calls {σ : Type} (env : Env σ) (p : Call → Bool)
    (hp : ∀ c, c.isSendPath = true → p c = false) (hout : p Call.uip_arp_out = false)
    (x : State σ) (i : Nat) :
    ∃ N : List Call, (periodic_conn env x i).trace = x.trace ++ N ∧
      N.filter p = [Call.uip_periodic i].filter p ∧
      (periodic_conn env x i).in_packet = x.in_packet := by
  unfold periodic_conn
  simp only
  split
  · obtain ⟨N, ht, hN, hin, _⟩ := network_send_calls env
      (callEngine Call.uip_arp_out env.uip_arp_out
        (callEngine (Call.uip_periodic i) (env.uip_periodic i) x))
    refine ⟨[Call.uip_periodic i, Call.uip_arp_out] ++ N, ?_, ?_, ?_⟩
    · rw [ht]
      simp [callEngine]
    · rw [List.filter_append, filter_nil_of_forall N p _ hN hp]
      simp [List.filter_cons, hout]
    · rw [hin]
      simp [callEngine]
  · exact ⟨[Call.uip_periodic i], by simp [callEngine], rfl, by simp [callEngine]⟩

theorem periodic_udp_conn_calls {σ : Type} (env : Env σ) (p : Call → Bool)
    (hp : ∀ c, c.isSendPath = true → p c = false)
    (x : State σ) (i : Nat) :
    ∃ N : List Call, (periodic_udp_conn env x i).trace = x.trace ++ N ∧
      N.filter p = [Call.uip_udp_periodic i].filter p ∧
      (periodic_udp_conn env x i).in_packet = x.in_packet := by
  unfold periodic_udp_conn
  simp only
  split
  · obtain ⟨N, ht, hN, hin, _⟩ := network_send_calls env
      (callEngine (Call.uip_udp_periodic i) (env.uip_udp_periodic i) x)
    refine ⟨[Call.uip_udp_periodic i] ++ N, ?_, ?_, ?_⟩
    · rw [ht]
      simp [callEngine]
    · rw [List.filter_append, filter_nil_of_forall N p _ hN hp]
      simp
    · rw [hin]
      simp [callEngine]
  · exact ⟨[Call.uip_udp_periodic i], by simp [callEngine], rfl, by simp [callEngine]⟩

theorem foldl_calls {σ : Type} (step : State σ → Nat → State σ) (mk : Nat → Call)
    (p : Call → Bool)
    (hstep : ∀ x i, ∃ N : List Call, (step x i).trace = x.trace ++ N ∧
      N.filter p = [mk i].filter p ∧ (step x i).in_packet = x.in_packet) :
    ∀ (l : List Nat) (x : State σ), ∃ M : List Call,
      (l.foldl step x).trace = x.trace ++ M ∧
      M.filter p = (l.map mk).filter p ∧
      (l.foldl step x).in_packet = x.in_packet := by
  intro l
  induction l with
  | nil =>
    intro x
    exact ⟨[], by simp, by simp, rfl⟩
  | cons i rest ih =>
    intro x
    obtain ⟨N, hN, hNf, hNin⟩ := hstep x i
    obtain ⟨M, hM, hMf, hMin⟩ := ih (step x i)
    refine ⟨N ++ M, ?_, ?_, ?_⟩
    · rw [List.foldl_cons, hM, hN, List.append_assoc]
    · rw [List.filter_append, hNf, hMf, List.map_cons, ← List.filter_append]
      rfl
    · rw [List.foldl_cons, hMin, hNin]

theorem tick_periodic_calls {σ : Type} (env : Env σ) (p : Call → Bool)
    (hp : ∀ c, c.isSendPath = true → p c = false) (hout : p Call.uip_arp_out = false)
    (x : State σ) :
    ∃ M : List Call, (tick_periodic env x).trace = x.trace ++ M ∧
      M.filter p = (periodicCalls env (env.uip_timer_expired x.ext).1).filter p ∧
      (tick_periodic env x).in_packet = x.in_packet := by
  unfold tick_periodic periodicCalls
  simp only
  split
  · obtain ⟨M1, h1, h1f, h1in⟩ := foldl_calls (periodic_conn env) Call.uip_periodic p
      (periodic_conn_calls env p hp hout) (List.range env.UIP_CONNS)
      { x with ext := env.uip_timer_restart (env.uip_timer_expired x.ext).2,
               trace := x.trace ++ [Call.uip_timer_expired] ++ [Call.uip_timer_restart] }
    obtain ⟨M2, h2, h2f, h2in⟩ := foldl_calls (periodic_udp_conn env) Call.uip_udp_periodic p
      (periodic_udp_conn_calls env p hp) (List.range env.UIP_UDP_CONNS)
      (List.foldl (periodic_conn env)
        { x with ext := env.uip_timer_restart (env.uip_timer_expired x.ext).2,
                 trace := x.trace ++ [Call.uip_timer_expired] ++ [Call.uip_timer_restart] }
        (List.range env.UIP_CONNS))
    refine ⟨[Call.uip_timer_expired, Call.uip_timer_restart] ++ (M1 ++ M2), ?_, ?_, ?_⟩
    · rw [h2, h1]
      simp
    · rw [List.filter_append, List.filter_append, h1f, h2f, ← List.filter_append,
        ← List.filter_append]
      rfl
    · rw [h2in, h1in]
  · exact ⟨[Call.uip_timer_expired], rfl, rfl, rfl⟩

theorem isDispatch_of_isSendPath (c : Call) (h : c.isSendPath = true) : c.isDispatch = true := by
  cases c <;> simp_all [Call.isDispatch, Call.isSendPath]

theorem tick_ip_calls {σ : Type} (env : Env σ) (x : State σ) :
    ∃ N : List Call, (tick_ip env x).trace = x.trace ++ N ∧
      (∀ c ∈ N, c.isDispatch = true) ∧ (tick_ip env x).in_packet = x.in_packet := by
  obtain ⟨hIt, hIin⟩ := tick_ip_input_facts env x
  unfold tick_ip
  simp only
  split
  · obtain ⟨N, ht, hN, hin, _⟩ := network_send_calls env
      (callEngine Call.uip_arp_out env.uip_arp_out (tick_ip_input env x))
    refine ⟨[Call.uip_arp_ipin, Call.uip_input, Call.uip_arp_out] ++ N, ?_, ?_, ?_⟩
    · rw [ht]
      simp [callEngine, hIt]
    · intro c hc
      rcases List.mem_append.1 hc with h | h
      · simp only [List.mem_cons, List.mem_singleton, List.not_mem_nil, or_false] at h
        rcases h with h | h | h <;> rw [h] <;> rfl
      · exact isDispatch_of_isSendPath c (hN c h)
    · rw [hin]
      simp [callEngine, hIin]
  · refine ⟨[Call.uip_arp_ipin, Call.uip_input], hIt, ?_, hIin⟩
    intro c hc
    simp only [List.mem_cons, List.mem_singleton, List.not_mem_nil, or_false] at hc
    rcases hc with h | h <;> rw [h] <;> rfl

theorem tick_arp_dispatch_calls {σ : Type} (env : Env σ) (x : State σ) :
    ∃ N : List Call, (tick_arp env x).trace = x.trace ++ N ∧
      (∀ c ∈ N, c.isDispatch = true) ∧ (tick_arp env x).in_packet = x.in_packet := by
  obtain ⟨hAt, hAin⟩ := tick_arp_input_facts env x
  unfold tick_arp
  simp only
  split
  · obtain ⟨N, ht, hN, hin, _⟩ := network_send_calls env (tick_arp_input env x)
    refine ⟨[Call.uip_arp_arpin] ++ N, ?_, ?_, ?_⟩
    · rw [ht, hAt, List.append_assoc]
    · intro c hc
      rcases List.mem_append.1 hc with h | h
      · simp only [List.mem_singleton] at h
        rw [h]
        rfl
      · exact isDispatch_of_isSendPath c (hN c h)
    · rw [hin, hAin]
  · refine ⟨[Call.uip_arp_arpin], hAt, ?_, hAin⟩
    intro c hc
    simp only [List.mem_singleton] at hc
    rw [hc]
    rfl

theorem tick_processed_calls {σ : Type} (env : Env σ) (x : State σ) :
    ∃ N : List Call, (tick_processed env x).trace = x.trace ++ N ∧
      (∀ c ∈ N, c.isDispatch = true) ∧ (tick_processed env x).in_packet = x.in_packet := by
  have hcons : ∀ (y : State σ) (pre : List Call), y.trace = x.trace ++ pre →
      y.in_packet = x.in_packet → (∀ c ∈ pre, c.isDispatch = true) →
      (∃ N : List Call, y.trace = x.trace ++ N ∧ (∀ c ∈ N, c.isDispatch = true) ∧
        y.in_packet = x.in_packet) := fun y pre h1 h2 h3 => ⟨pre, h1, h3, h2⟩
  have hext : ∀ (y z : State σ) (pre N : List Call), y.trace = x.trace ++ pre →
      y.in_packet = x.in_packet → (∀ c ∈ pre, c.isDispatch = true) →
      z.trace = y.trace ++ N → (∀ c ∈ N, c.isDispatch = true) → z.in_packet = y.in_packet →
      (∃ N : List Call, z.trace = x.trace ++ N ∧ (∀ c ∈ N, c.isDispatch = true) ∧
        z.in_packet = x.in_packet) := by
    intro y z pre N h1 h2 h3 h4 h5 h6
    refine ⟨pre ++ N, by rw [h4, h1, List.append_assoc], ?_, by rw [h6, h2]⟩
    intro c hc
    rcases List.mem_append.1 hc with h | h
    · exact h3 c h
    · exact h5 c h
  have hsize : (tick_size env x).trace = x.trace ++ [Call.blockSize x.in_packet] ∧
      (tick_size env x).in_packet = x.in_packet := by
    simp [tick_size]
  have hread : (tick_read env (tick_size env x)).trace
        = x.trace ++ [Call.blockSize x.in_packet, Call.readPacket x.in_packet 0 env.UIP_BUFSIZE] ∧
      (tick_read env (tick_size env x)).in_packet = x.in_packet := by
    simp [tick_read, tick_size]
  have hpre1 : ∀ c ∈ [Call.blockSize x.in_packet], c.isDispatch = true := by
    intro c hc
    simp only [List.mem_singleton] at hc
    rw [hc]
    rfl
  have hpre2 : ∀ c ∈ [Call.blockSize x.in_packet,
      Call.readPacket x.in_packet 0 env.UIP_BUFSIZE], c.isDispatch = true := by
    intro c hc
    simp only [List.mem_cons, List.mem_singleton, List.not_mem_nil, or_false] at hc
    rcases hc with h | h <;> rw [h] <;> rfl
  unfold tick_processed
  split
  · unfold tick_dispatch
    simp only
    split
    · obtain ⟨N, ht, hN, hin⟩ := tick_ip_calls env (tick_read env (tick_size env x))
      exact hext _ _ _ N hread.1 hread.2 hpre2 ht hN hin
    · split
      · obtain ⟨N, ht, hN, hin⟩ := tick_arp_dispatch_calls env (tick_read env (tick_size env x))
        exact hext _ _ _ N hread.1 hread.2 hpre2 ht hN hin
      · exact hcons _ _ hread.1 hread.2 hpre2
  · exact hcons _ _ hsize.1 hsize.2 hpre1

theorem tick_inbound_eq {σ : Type} (env : Env σ) (x : State σ) :
    tick_inbound env x =
      if x.in_packet ≠ NOBLOCK then tick_free env (tick_processed env x) else x := rfl

theorem tick_inbound_calls {σ : Type} (env : Env σ) (p : Call → Bool)
    (hp : ∀ c, c.isDispatch = true → p c = false) (x : State σ) :
    ∃ N : List Call, (tick_inbound env x).trace = x.trace ++ N ∧
      N.filter p = (if x.in_packet ≠ NOBLOCK ∧
          (tick_processed env x).packetstate &&& UIPETHERNET_FREEPACKET ≠ 0
        then [Call.freePacket] else []).filter p ∧
      (tick_inbound env x).in_packet =
        (if x.in_packet ≠ NOBLOCK ∧
            (tick_processed env x).packetstate &&& UIPETHERNET_FREEPACKET ≠ 0
          then NOBLOCK else x.in_packet) := by
  rw [tick_inbound_eq]
  by_cases hin : x.in_packet ≠ NOBLOCK
  · obtain ⟨N, ht, hN, hPin⟩ := tick_processed_calls env x
    have hin1 : (x.in_packet ≠ NOBLOCK) = True := eq_true hin
    simp only [hin1, if_true, true_and]
    refine ⟨N ++ (if (tick_processed env x).packetstate &&& UIPETHERNET_FREEPACKET ≠ 0
      then [Call.freePacket] else []), ?_, ?_, ?_⟩
    · rw [tick_free_trace, ht, List.append_assoc, hPin]
      simp only [hin1, true_and]
    · rw [List.filter_append, filter_nil_of_forall N p _ hN hp, List.nil_append]
    · unfold tick_free
      rw [hPin]
      simp only [hin1, true_and]
      split
      · rfl
      · exact hPin
  · have hin0 : (x.in_packet ≠ NOBLOCK) = False := eq_false hin
    simp only [hin0, if_false, false_and]
    exact ⟨[], by simp, by simp⟩

theorem tick_filter {σ : Type} (env : Env σ) (p : Call → Bool)
    (hp : ∀ c, c.isDispatch = true → p c = false) (s : State σ) :
    (issued s (tick env s)).filter p =
      (if s.in_packet = NOBLOCK then [Call.receivePacket] else []).filter p ++
      ((if (tick_receive env s).in_packet ≠ NOBLOCK ∧
          (tick_processed env (tick_receive env s)).packetstate &&& UIPETHERNET_FREEPACKET ≠ 0
        then [Call.freePacket] else []).filter p ++
      (periodicCalls env
        (env.uip_timer_expired (tick_inbound env (tick_receive env s)).ext).1).filter p) ∧
    (tick env s).in_packet =
      (if (tick_receive env s).in_packet ≠ NOBLOCK ∧
          (tick_processed env (tick_receive env s)).packetstate &&& UIPETHERNET_FREEPACKET ≠ 0
        then NOBLOCK else (tick_receive env s).in_packet) := by
  obtain ⟨N, hN, hNf, hNin⟩ := tick_inbound_calls env p hp (tick_receive env s)
  obtain ⟨M, hM, hMf, hMin⟩ := tick_periodic_calls env p
    (fun c hc => hp c (isDispatch_of_isSendPath c hc)) (hp _ rfl)
    (tick_inbound env (tick_receive env s))
  have htrace : (tick env s).trace = s.trace ++
      ((if s.in_packet = NOBLOCK then [Call.receivePacket] else []) ++ (N ++ M)) := by
    unfold tick
    rw [hM, hN, tick_receive_trace]
    simp
  constructor
  · rw [issued_of_trace s _ _ htrace, List.filter_append, List.filter_append, hNf, hMf]
  · unfold tick
    rw [hMin, hNin]

theorem periodicCalls_filter_nil {σ : Type} (env : Env σ) (b : Bool) (p : Call → Bool)
    (h1 : p Call.uip_timer_expired = false) (h2 : p Call.uip_timer_restart = false)
    (h3 : ∀ i, p (Call.uip_periodic i) = false) (h4 : ∀ i, p (Call.uip_udp_periodic i) = false) :
    (periodicCalls env b).filter p = [] := by
  rw [List.filter_eq_nil_iff]
  intro c hc
  unfold periodicCalls at hc
  split at hc
  · simp only [List.mem_cons, List.mem_append, List.mem_map, List.mem_range] at hc
    rcases hc with h | h | ⟨i, _, h⟩ | ⟨i, _, h⟩
    · simp [h, h1]
    · simp [h, h2]
    · simp [← h, h3]
    · simp [← h, h4]
  · simp only [List.mem_singleton] at hc
    simp [hc, h1]

theorem tick_count_of_inbound {σ : Type} (env : Env σ) (s : State σ) (p : Call → Bool)
    (hp : ∀ c, c.isSendPath = true → p c = false) (hout : p Call.uip_arp_out = false)
    (h1 : p Call.uip_timer_expired = false) (h2 : p Call.uip_timer_restart = false)
    (h3 : ∀ i, p (Call.uip_periodic i) = false) (h4 : ∀ i, p (Call.uip_udp_periodic i) = false)
    (I : List Call) (hI : (tick_inbound env (tick_receive env s)).trace = s.trace ++ I) :
    (issued s (tick env s)).countP p = I.countP p := by
  obtain ⟨M, hM, hMf, _⟩ := tick_periodic_calls env p hp hout
    (tick_inbound env (tick_receive env s))
  have htrace : (tick env s).trace = s.trace ++ (I ++ M) := by
    unfold tick
    rw [hM, hI, List.append_assoc]
  rw [issued_of_trace s _ _ htrace, List.countP_append, List.countP_eq_length_filter p M, hMf,
    periodicCalls_filter_nil env _ p h1 h2 h3 h4]
  rfl

/-! ## Further claims on the packet scheduler -/

/-- C11 (as stated, refuted): a tick receives handle 1 holding an
address-resolution frame and `uip_arp_arpin` leaves `uip_len = 42`: the tick
requests a new block, transmits on the new handle 2, not on handle 1, and
releases the inbound packet separately with `freePacket`. -/
theorem tick_arp_reply_uses_new_handle :
    (tick_receive (scriptedEnv arpFrame 42 none) (scriptedState 0 0 0 0 0 [] 0)).in_packet = 1 ∧
    ethTypeIs (tick_loaded (scriptedEnv arpFrame 42 none)
      (scriptedState 0 0 0 0 0 [] 0)).uip_buf UIP_ETHTYPE_ARP ∧
    0 < (tick_arp_input (scriptedEnv arpFrame 42 none)
      (tick_loaded (scriptedEnv arpFrame 42 none) (scriptedState 0 0 0 0 0 [] 0))).uip_len ∧
    issued (scriptedState 0 0 0 0 0 [] 0)
      (tick (scriptedEnv arpFrame 42 none) (scriptedState 0 0 0 0 0 [] 0)) =
      [Call.receivePacket, Call.blockSize 1, Call.readPacket 1 0 98, Call.uip_arp_arpin,
       Call.allocBlock 42, Call.writePacket 2 0 (arpFrame.take 42) 42, Call.sendPacket 2,
       Call.freeBlock 2, Call.freePacket, Call.uip_timer_expired] ∧
    (issued (scriptedState 0 0 0 0 0 [] 0)
      (tick (scriptedEnv arpFrame 42 none) (scriptedState 0 0 0 0 0 [] 0))).countP
      Call.isAlloc = 1 ∧
    (issued (scriptedState 0 0 0 0 0 [] 0)
      (tick (scriptedEnv arpFrame 42 none) (scriptedState 0 0 0 0 0 [] 0))).countP
      Call.isFreePacket = 1 ∧
    Call.sendPacket 1 ∉ issued (scriptedState 0 0 0 0 0 [] 0)
      (tick (scriptedEnv arpFrame 42 none) (scriptedState 0 0 0 0 0 [] 0)) := by
  decide

/-- C11 (amended): in a tick that holds an inbound handle `H2` of non-zero size
with an address-resolution frame, for which `uip_arp_arpin` leaves `uip_len > 0`
and the packet state as `tick` set it: `uip_arp_ipin` is not called,
`uip_arp_arpin` is called exactly once, and up to the timer check the tick
issues, in this order, `allocBlock(uip_len)`, then, when it returns a handle
`h`, the write of the first `uip_len` bytes of the staging buffer to `h`, the
transmit of `h` and `freeBlock(h)`, and then `freePacket`; the inbound packet
is released by exactly one `freePacket`, separate from the send. -/
theorem tick_arp_reply_fresh_send {σ : Type} (env : Env σ) (s : State σ)
    (hrecv : (tick_receive env s).in_packet ≠ NOBLOCK)
    (hsize : 0 < (tick_size env (tick_receive env s)).uip_len)
    (harp : ethTypeIs (tick_loaded env s).uip_buf UIP_ETHTYPE_ARP)
    (hreply : 0 < (tick_arp_input env (tick_loaded env s)).uip_len)
    (hflags : (tick_arp_input env (tick_loaded env s)).packetstate
      = (tick_loaded env s).packetstate) :
    issued s (tick_inbound env (tick_receive env s)) =
      (if s.in_packet = NOBLOCK then [Call.receivePacket] else []) ++
      ([Call.blockSize (tick_receive env s).in_packet,
        Call.readPacket (tick_receive env s).in_packet 0 env.UIP_BUFSIZE,
        Call.uip_arp_arpin,
        Call.allocBlock (tick_arp_input env (tick_loaded env s)).uip_len] ++
      ((if (env.allocBlock (tick_arp_input env (tick_loaded env s)).uip_len
            (tick_arp_input env (tick_loaded env s)).ext).1 ≠ NOBLOCK then
        [Call.writePacket
          (env.allocBlock (tick_arp_input env (tick_loaded env s)).uip_len
            (tick_arp_input env (tick_loaded env s)).ext).1 0
          ((tick_arp_input env (tick_loaded env s)).uip_buf.take
            (tick_arp_input env (tick_loaded env s)).uip_len)
          (tick_arp_input env (tick_loaded env s)).uip_len,
         Call.sendPacket (env.allocBlock (tick_arp_input env (tick_loaded env s)).uip_len
            (tick_arp_input env (tick_loaded env s)).ext).1,
         Call.freeBlock (env.allocBlock (tick_arp_input env (tick_loaded env s)).uip_len
            (tick_arp_input env (tick_loaded env s)).ext).1]
        else []) ++
      [Call.freePacket])) ∧
    (issued s (tick env s)).countP Call.isArpIpin = 0 ∧
    (issued s (tick env s)).countP Call.isArpIn = 1 ∧
    (issued s (tick env s)).countP Call.isFreePacket = 1 := by
  obtain ⟨hLt, hLin, hLps, _⟩ := tick_loaded_facts env s
  obtain ⟨hAt, hAin⟩ := tick_arp_input_facts env (tick_loaded env s)
  have hR := tick_receive_trace env s
  have hmode0 : (tick_arp_input env (tick_loaded env s)).packetstate
      &&& UIPETHERNET_SENDPACKET = 0 := by
    rw [hflags, hLps]
    decide
  have hD : tick_inbound env (tick_receive env s)
      = tick_free env (network_send env (tick_arp_input env (tick_loaded env s))).2 := by
    rw [tick_inbound_held env s hrecv hsize]
    unfold tick_arp
    simp only [ethType_arp_not_ip _ harp, harp, hreply, if_false, if_true]
  by_cases hok : (env.allocBlock (tick_arp_input env (tick_loaded env s)).uip_len
      (tick_arp_input env (tick_loaded env s)).ext).1 ≠ NOBLOCK
  · obtain ⟨_, hNt, _, hNin, hNps⟩ := network_send_alloc_ok env _ hmode0 hok
    obtain ⟨hFt, _⟩ := tick_free_held env
      (network_send env (tick_arp_input env (tick_loaded env s))).2
      (by rw [hNin, hAin, hLin]; exact hrecv) (by rw [hNps, hflags, hLps])
    have hI : (tick_inbound env (tick_receive env s)).trace = s.trace ++
        ((if s.in_packet = NOBLOCK then [Call.receivePacket] else []) ++
        [Call.blockSize (tick_receive env s).in_packet,
          Call.readPacket (tick_receive env s).in_packet 0 env.UIP_BUFSIZE,
          Call.uip_arp_arpin,
          Call.allocBlock (tick_arp_input env (tick_loaded env s)).uip_len,
          Call.writePacket
            (env.allocBlock (tick_arp_input env (tick_loaded env s)).uip_len
              (tick_arp_input env (tick_loaded env s)).ext).1 0
            ((tick_arp_input env (tick_loaded env s)).uip_buf.take
              (tick_arp_input env (tick_loaded env s)).uip_len)
            (tick_arp_input env (tick_loaded env s)).uip_len,
          Call.sendPacket (env.allocBlock (tick_arp_input env (tick_loaded env s)).uip_len
            (tick_arp_input env (tick_loaded env s)).ext).1,
          Call.freeBlock (env.allocBlock (tick_arp_input env (tick_loaded env s)).uip_len
            (tick_arp_input env (tick_loaded env s)).ext).1,
          Call.freePacket]) := by
      rw [hD, hFt, hNt, hAt, hLt, hR]
      simp
    refine ⟨?_, ?_, ?_, ?_⟩
    · rw [issued_of_trace s _ _ hI]
      simp [hok]
    · rw [tick_count_of_inbound env s _ (by intro c hc; cases c <;> simp_all [Call.isSendPath,
        Call.isArpIpin]) rfl rfl rfl (fun _ => rfl) (fun _ => rfl) _ hI,
        List.countP_append, receive_calls_count _ _ rfl]
      simp [Call.isArpIpin]
    · rw [tick_count_of_inbound env s _ (by intro c hc; cases c <;> simp_all [Call.isSendPath,
        Call.isArpIn]) rfl rfl rfl (fun _ => rfl) (fun _ => rfl) _ hI,
        List.countP_append, receive_calls_count _ _ rfl]
      simp [Call.isArpIn]
    · rw [tick_count_of_inbound env s _ (by intro c hc; cases c <;> simp_all [Call.isSendPath,
        Call.isFreePacket]) rfl rfl rfl (fun _ => rfl) (fun _ => rfl) _ hI,
        List.countP_append, receive_calls_count _ _ rfl]
      simp [Call.isFreePacket]
  · have hfail : (env.allocBlock (tick_arp_input env (tick_loaded env s)).uip_len
        (tick_arp_input env (tick_loaded env s)).ext).1 = NOBLOCK := by
      simpa using hok
    obtain ⟨_, hNt, _, hNin, hNps, _⟩ := network_send_alloc_fail env _ hmode0 hfail
    obtain ⟨hFt, _⟩ := tick_free_held env
      (network_send env (tick_arp_input env (tick_loaded env s))).2
      (by rw [hNin, hAin, hLin]; exact hrecv) (by rw [hNps, hflags, hLps])
    have hI : (tick_inbound env (tick_receive env s)).trace = s.trace ++
        ((if s.in_packet = NOBLOCK then [Call.receivePacket] else []) ++
        [Call.blockSize (tick_receive env s).in_packet,
          Call.readPacket (tick_receive env s).in_packet 0 env.UIP_BUFSIZE,
          Call.uip_arp_arpin,
          Call.allocBlock (tick_arp_input env (tick_loaded env s)).uip_len,
          Call.freePacket]) := by
      rw [hD, hFt, hNt, hAt, hLt, hR]
      simp
    refine ⟨?_, ?_, ?_, ?_⟩
    · rw [issued_of_trace s _ _ hI]
      simp [hfail]
    · rw [tick_count_of_inbound env s _ (by intro c hc; cases c <;> simp_all [Call.isSendPath,
        Call.isArpIpin]) rfl rfl rfl (fun _ => rfl) (fun _ => rfl) _ hI,
        List.countP_append, receive_calls_count _ _ rfl]
      simp [Call.isArpIpin]
    · rw [tick_count_of_inbound env s _ (by intro c hc; cases c <;> simp_all [Call.isSendPath,
        Call.isArpIn]) rfl rfl rfl (fun _ => rfl) (fun _ => rfl) _ hI,
        List.countP_append, receive_calls_count _ _ rfl]
      simp [Call.isArpIn]
    · rw [tick_count_of_inbound env s _ (by intro c hc; cases c <;> simp_all [Call.isSendPath,
        Call.isFreePacket]) rfl rfl rfl (fun _ => rfl) (fun _ => rfl) _ hI,
        List.countP_append, receive_calls_count _ _ rfl]
      simp [Call.isFreePacket]

theorem tick_arp_reply_fresh_send_witness :
    issued (scriptedState 0 0 0 0 0 [] 0)
      (tick_inbound (scriptedEnv arpFrame 42 none)
        (tick_receive (scriptedEnv arpFrame 42 none) (scriptedState 0 0 0 0 0 [] 0))) =
      [Call.receivePacket, Call.blockSize 1, Call.readPacket 1 0 98, Call.uip_arp_arpin,
       Call.allocBlock 42, Call.writePacket 2 0 (arpFrame.take 42) 42, Call.sendPacket 2,
       Call.freeBlock 2, Call.freePacket] ∧
    (issued (scriptedState 0 0 0 0 0 [] 0)
      (tick (scriptedEnv arpFrame 42 none) (scriptedState 0 0 0 0 0 [] 0))).countP
      Call.isArpIpin = 0 ∧
    (issued (scriptedState 0 0 0 0 0 [] 0)
      (tick (scriptedEnv arpFrame 42 none) (scriptedState 0 0 0 0 0 [] 0))).countP
      Call.isArpIn = 1 ∧
    (issued (scriptedState 0 0 0 0 0 [] 0)
      (tick (scriptedEnv arpFrame 42 none) (scriptedState 0 0 0 0 0 [] 0))).countP
      Call.isFreePacket = 1 :=
  tick_arp_reply_fresh_send (scriptedEnv arpFrame 42 none) (scriptedState 0 0 0 0 0 [] 0)
    (by decide) (by decide) (by decide) (by decide) (by decide)

/-- C12: in every tick, if the timer is expired at the check, then among the
calls of the tick the timer is restarted exactly once, before any slot is
visited, and `uip_periodic` is called once for each slot of `[0, UIP_CONNS)` in
ascending order; if the timer is not expired, the timer is not restarted and
`uip_periodic` is not called. -/
theorem tick_periodic_pass {σ : Type} (env : Env σ) (s : State σ) :
    ((env.uip_timer_expired (tick_inbound env (tick_receive env s)).ext).1 = true →
      (issued s (tick env s)).filter (fun c => c.isRestart || c.isPeriodic) =
        Call.uip_timer_restart :: (List.range env.UIP_CONNS).map Call.uip_periodic) ∧
    ((env.uip_timer_expired (tick_inbound env (tick_receive env s)).ext).1 = false →
      (issued s (tick env s)).filter (fun c => c.isRestart || c.isPeriodic) = []) := by
  have hf := (tick_filter env (fun c => c.isRestart || c.isPeriodic)
    (by intro c hc; cases c <;> simp_all [Call.isDispatch, Call.isSendPath, Call.isRestart,
      Call.isPeriodic]) s).1
  have hR : (if s.in_packet = NOBLOCK then [Call.receivePacket] else []).filter
      (fun c => c.isRestart || c.isPeriodic) = [] := by
    split <;> rfl
  have hF : (if (tick_receive env s).in_packet ≠ NOBLOCK ∧
        (tick_processed env (tick_receive env s)).packetstate &&& UIPETHERNET_FREEPACKET ≠ 0
      then [Call.freePacket] else []).filter (fun c => c.isRestart || c.isPeriodic) = [] := by
    split <;> rfl
  have hconn : ((List.range env.UIP_CONNS).map Call.uip_periodic).filter
      (fun c => c.isRestart || c.isPeriodic) = (List.range env.UIP_CONNS).map Call.uip_periodic := by
    rw [List.filter_eq_self]
    intro c hc
    simp only [List.mem_map] at hc
    obtain ⟨i, _, h⟩ := hc
    rw [← h]
    rfl
  have hudp : ((List.range env.UIP_UDP_CONNS).map Call.uip_udp_periodic).filter
      (fun c => c.isRestart || c.isPeriodic) = [] := by
    rw [List.filter_eq_nil_iff]
    intro c hc
    simp only [List.mem_map] at hc
    obtain ⟨i, _, h⟩ := hc
    rw [← h]
    simp [Call.isRestart, Call.isPeriodic]
  rw [hf, hR, hF, List.nil_append, List.nil_append]
  constructor
  · intro h
    rw [h]
    unfold periodicCalls
    simp only [if_true]
    rw [List.filter_cons_of_neg (by decide), List.filter_cons_of_pos (by rfl),
      List.filter_append, hconn, hudp, List.append_nil]
  · intro h
    rw [h]
    rfl

theorem tick_periodic_pass_witness :
    (issued (scriptedState 0 0 0 0 0 [] 0)
      (tick (expiredEnv tcpFrame 0 none) (scriptedState 0 0 0 0 0 [] 0))).filter
      (fun c => c.isRestart || c.isPeriodic) =
      [Call.uip_timer_restart, Call.uip_periodic 0, Call.uip_periodic 1] ∧
    (issued (scriptedState 0 0 0 0 0 [] 0)
      (tick (scriptedEnv tcpFrame 0 none) (scriptedState 0 0 0 0 0 [] 0))).filter
      (fun c => c.isRestart || c.isPeriodic) = [] :=
  ⟨(tick_periodic_pass (expiredEnv tcpFrame 0 none) (scriptedState 0 0 0 0 0 [] 0)).1
      (by decide),
   (tick_periodic_pass (scriptedEnv tcpFrame 0 none) (scriptedState 0 0 0 0 0 [] 0)).2
      (by decide)⟩

/-- C15 (as stated, refuted): a tick receives handle 1 with a network-layer
frame and `uip_input` leaves `uip_len = 54` with the reuse flag set while
`uip_packet` still is the inbound handle. With the free flag kept (flags 3) the
handle is released by `freeBlock 1` in `network_send` and then again by
`freePacket`; with the free flag cleared (flags 2) no further free is issued
but `in_packet` still refers to the freed handle 1 at the end of the tick. -/
theorem tick_reuse_inbound_handle_released_twice :
    issued (scriptedState 0 0 54 0 0 [] 0)
      (tick (scriptedEnv tcpFrame 54 (some 3)) (scriptedState 0 0 54 0 0 [] 0)) =
      [Call.receivePacket, Call.blockSize 1, Call.readPacket 1 0 98, Call.uip_arp_ipin,
       Call.uip_input, Call.uip_arp_out, Call.writePacket 1 0 (tcpFrame.take 54) 54,
       Call.sendPacket 1, Call.freeBlock 1, Call.freePacket, Call.uip_timer_expired] ∧
    issued (scriptedState 0 0 54 0 0 [] 0)
      (tick (scriptedEnv tcpFrame 54 (some 2)) (scriptedState 0 0 54 0 0 [] 0)) =
      [Call.receivePacket, Call.blockSize 1, Call.readPacket 1 0 98, Call.uip_arp_ipin,
       Call.uip_input, Call.uip_arp_out, Call.writePacket 1 0 (tcpFrame.take 54) 54,
       Call.sendPacket 1, Call.freeBlock 1, Call.uip_timer_expired] ∧
    (tick (scriptedEnv tcpFrame 54 (some 2)) (scriptedState 0 0 54 0 0 [] 0)).in_packet = 1 ∧
    (tick (scriptedEnv tcpFrame 54 (some 2)) (scriptedState 0 0 54 0 0 [] 0)).in_packet
      ≠ NOBLOCK := by
  decide

/-- C15 (amended): in every tick, whatever flags the protocol engine sets, at
most one `freePacket` is issued. When an inbound handle is held, it is issued
exactly once, and `in_packet` is `NOBLOCK` at the end of the tick, if the packet
state at line 201 carries the free flag; it is not issued, and `in_packet` still
holds the handle at the end of the tick, if the flag is cleared. `network_send`
changes neither `in_packet` nor the flags. -/
theorem tick_free_packet_by_flag {σ : Type} (env : Env σ) (s : State σ) :
    (issued s (tick env s)).countP Call.isFreePacket ≤ 1 ∧
    ((tick_receive env s).in_packet ≠ NOBLOCK →
      ((tick_processed env (tick_receive env s)).packetstate &&& UIPETHERNET_FREEPACKET ≠ 0 →
        (issued s (tick env s)).countP Call.isFreePacket = 1 ∧
        (tick env s).in_packet = NOBLOCK) ∧
      ((tick_processed env (tick_receive env s)).packetstate &&& UIPETHERNET_FREEPACKET = 0 →
        (issued s (tick env s)).countP Call.isFreePacket = 0 ∧
        (tick env s).in_packet = (tick_receive env s).in_packet)) ∧
    (∀ x : State σ, (network_send env x).2.in_packet = x.in_packet ∧
      (network_send env x).2.packetstate = x.packetstate) := by
  obtain ⟨hf, hin⟩ := tick_filter env Call.isFreePacket
    (by intro c hc; cases c <;> simp_all [Call.isDispatch, Call.isSendPath, Call.isFreePacket]) s
  have hR : (if s.in_packet = NOBLOCK then [Call.receivePacket] else []).filter
      Call.isFreePacket = [] := by
    split <;> rfl
  have hP := periodicCalls_filter_nil env
    (env.uip_timer_expired (tick_inbound env (tick_receive env s)).ext).1 Call.isFreePacket
    rfl rfl (fun _ => rfl) (fun _ => rfl)
  rw [hR, hP, List.nil_append, List.append_nil] at hf
  rw [List.countP_eq_length_filter, hf]
  refine ⟨?_, fun hrecv => ⟨fun hflag => ?_, fun hflag => ?_⟩, fun x => ?_⟩
  · split <;> simp [Call.isFreePacket]
  · rw [hin]
    simp [hrecv, hflag, Call.isFreePacket]
  · rw [hin]
    simp [hflag]
  · obtain ⟨_, _, _, h1, h2⟩ := network_send_calls env x
    exact ⟨h1, h2⟩

theorem tick_free_packet_by_flag_witness :
    (issued (scriptedState 0 0 54 0 0 [] 0)
      (tick (scriptedEnv tcpFrame 54 (some 3)) (scriptedState 0 0 54 0 0 [] 0))).countP
      Call.isFreePacket = 1 ∧
    (tick (scriptedEnv tcpFrame 54 (some 3)) (scriptedState 0 0 54 0 0 [] 0)).in_packet
      = NOBLOCK ∧
    (issued (scriptedState 0 0 54 0 0 [] 0)
      (tick (scriptedEnv tcpFrame 54 (some 2)) (scriptedState 0 0 54 0 0 [] 0))).countP
      Call.isFreePacket = 0 ∧
    (tick (scriptedEnv tcpFrame 54 (some 2)) (scriptedState 0 0 54 0 0 [] 0)).in_packet
      = (tick_receive (scriptedEnv tcpFrame 54 (some 2))
          (scriptedState 0 0 54 0 0 [] 0)).in_packet :=
  ⟨((tick_free_packet_by_flag (scriptedEnv tcpFrame 54 (some 3))
      (scriptedState 0 0 54 0 0 [] 0)).2.1 (by decide)).1 (by decide) |>.1,
   ((tick_free_packet_by_flag (scriptedEnv tcpFrame 54 (some 3))
      (scriptedState 0 0 54 0 0 [] 0)).2.1 (by decide)).1 (by decide) |>.2,
   ((tick_free_packet_by_flag (scriptedEnv tcpFrame 54 (some 2))
      (scriptedState 0 0 54 0 0 [] 0)).2.1 (by decide)).2 (by decide) |>.1,
   ((tick_free_packet_by_flag (scriptedEnv tcpFrame 54 (some 2))
      (scriptedState 0 0 54 0 0 [] 0)).2.1 (by decide)).2 (by decide) |>.2⟩

end UIPEthernet
